import Mathlib

/-!
# EmbreeRenderer: a shallow embedding of `src/main.cpp`

The program builds a one-triangle Embree scene, casts one orthographic ray per
pixel of a 256x256 grid, stores 255 (hit) or 0 (miss) per pixel and writes the
raster as an ASCII PPM (`P3`) file.

Modelling conventions

* `int` is a mathematical integer; the `int` arithmetic of `savePPM` that can
  leave the 32-bit range (`width * height`, `i + 1`) is reduced with `wrap32`
  (two's complement, what the usual compilers produce). The loop counters of
  `renderImage` stay below 256 and are natural numbers.
* `float` is IEEE-754 binary32 with round-to-nearest-even; finite values are
  carried exactly as rationals (`F32.fin`).
* The Embree library is not part of the repository: `rtcIntersect1` is a
  parameter of the embedding, buffer allocation results are parameters of
  `initializeScene`.
* Output to `stdout` (`printf`) and the call of the image converter
  (`system("magick convert ...")`) do not influence the raster or `out.ppm` and
  are left out; `initializeDevice`, `errorFunction` and `main` only wire the
  functions below together.
* Fields named `rays`, `stores`, `reads` are ghost traces: they record what the
  code does (oracle queries, raster stores, buffer reads) and never influence it.
-/

namespace EmbreeRenderer

/-! ## Machine numbers -/

/-- Two's complement reduction of an integer to the range of a 32-bit `int`. -/
def wrap32 (z : Int) : Int := (z + 2147483648) % 4294967296 - 2147483648

/-- An `unsigned char`. -/
abbrev Byte := Fin 256

/-- Structural binary logarithm helper: `log2Fuel f n` is `floor (log2 n)` when `n ≤ 2 ^ f`. -/
def log2Fuel : Nat → Nat → Nat
  | 0, _ => 0
  | f + 1, n => if 2 ≤ n then log2Fuel f (n / 2) + 1 else 0

/-- Floor of the binary logarithm (0 at 0). -/
def natLog2 (n : Nat) : Nat := log2Fuel n n

/-- Floor of the binary logarithm of the positive ratio `n / d`. -/
def floorLog2Ratio (n d : Nat) : Int :=
  let e0 : Int := (natLog2 n : Int) - (natLog2 d : Int)
  if d * 2 ^ e0.toNat ≤ n * 2 ^ (-e0).toNat then e0 else e0 - 1

/-- Nearest natural number to `n / d`, ties to even. -/
def roundHalfEven (n d : Nat) : Nat :=
  let q := n / d
  let r := n % d
  if 2 * r < d then q else if d < 2 * r then q + 1 else if q % 2 = 0 then q else q + 1

/-- Nearest binary32 magnitude to the positive ratio `n / d` (24-bit significand,
minimal exponent -126, ties to even), before the overflow test. -/
def roundMag (n d : Nat) : ℚ :=
  let e := max (floorLog2Ratio n d) (-126)
  let s : Int := 23 - e
  let m := roundHalfEven (n * 2 ^ s.toNat) (d * 2 ^ (-s).toNat)
  mkRat (m * 2 ^ (-s).toNat) (2 ^ s.toNat)

/-- A binary32 value: a finite number, an infinity or a NaN. -/
inductive F32
  | fin (q : ℚ)
  | pinf
  | ninf
  | nan
  deriving DecidableEq

namespace F32

/-- Round a rational to binary32 (round to nearest, ties to even; overflow gives an infinity). -/
def round (q : ℚ) : F32 :=
  if q = 0 then fin 0
  else
    let m := roundMag q.num.natAbs q.den
    if (2 : ℚ) ^ 128 ≤ m then (if 0 < q then pinf else ninf)
    else fin (if 0 < q then m else -m)

/-- Conversion `(float)z` of an `int`. -/
def ofInt (z : Int) : F32 := round z

/-- Binary32 division `a / b`. -/
def div : F32 → F32 → F32
  | fin a, fin b =>
    if b = 0 then (if a = 0 then nan else if 0 < a then pinf else ninf)
    else round (a / b)
  | fin _, pinf => fin 0
  | fin _, ninf => fin 0
  | pinf, fin b => if 0 ≤ b then pinf else ninf
  | ninf, fin b => if 0 ≤ b then ninf else pinf
  | _, _ => nan

/-- The rational value of a finite float. -/
def toRat? : F32 → Option ℚ
  | fin q => some q
  | _ => none

end F32

/-! ## The part of the Embree interface the program uses -/

/-- The constant `RTC_INVALID_GEOMETRY_ID` of the Embree headers, `(unsigned)-1`. -/
def RTC_INVALID_GEOMETRY_ID : Nat := 4294967295

/-- The fields of `struct RTCRayHit` that `castRay` initialises or reads. -/
structure RTCRayHit where
  org_x : F32
  org_y : F32
  org_z : F32
  dir_x : F32
  dir_y : F32
  dir_z : F32
  tnear : F32
  tfar : F32
  mask : Nat
  flags : Nat
  geomID : Nat
  instID0 : Nat
  deriving DecidableEq

/-- A triangle geometry: its vertex buffer (floats, three per vertex) and index
buffer (three per face); `none` is the null pointer of a failed allocation. -/
structure RTCGeometry where
  vertices : Option (List F32)
  indices : Option (List Nat)
  committed : Bool
  deriving DecidableEq

/-- A scene: the attached geometries and the commit flag. -/
structure RTCScene where
  geometries : List RTCGeometry
  committed : Bool
  deriving DecidableEq

/-- A store into one of the two mesh buffers (ghost trace of `initializeScene`). -/
inductive BufferStore
  | vertex (i : Nat) (v : F32)
  | index (i : Nat) (v : Nat)
  deriving DecidableEq

/-- Result of `initializeScene`: the scene handle it returns and the stores it made. -/
structure SceneInit where
  scene : RTCScene
  stores : List BufferStore
  deriving DecidableEq

/-! ## initializeScene (main.cpp 68-131) -/

/-- The function `initializeScene`. `vbuf` and `ibuf` are what the two calls of
`rtcSetNewGeometryBuffer` return: the fresh buffer with its initial content, or
`none` for a null pointer. -/
def initializeScene (vbuf : Option (List F32)) (ibuf : Option (List Nat)) : SceneInit :=
  let scene : RTCScene := { geometries := [], committed := false }
  let geom : RTCGeometry := { vertices := vbuf, indices := ibuf, committed := false }
  let filled : RTCGeometry × List BufferStore :=
    match vbuf, ibuf with
    | some vertices, some indices =>
      let vertices := vertices.set 0 (F32.fin 0)
      let vertices := vertices.set 1 (F32.fin 0)
      let vertices := vertices.set 2 (F32.fin 0)
      let vertices := vertices.set 3 (F32.fin 1)
      let vertices := vertices.set 4 (F32.fin 0)
      let vertices := vertices.set 5 (F32.fin 0)
      let vertices := vertices.set 6 (F32.fin 0)
      let vertices := vertices.set 7 (F32.fin 1)
      let vertices := vertices.set 8 (F32.fin 0)
      let indices := indices.set 0 0
      let indices := indices.set 1 1
      let indices := indices.set 2 2
      ({ geom with vertices := some vertices, indices := some indices },
        [.vertex 0 (F32.fin 0), .vertex 1 (F32.fin 0), .vertex 2 (F32.fin 0),
         .vertex 3 (F32.fin 1), .vertex 4 (F32.fin 0), .vertex 5 (F32.fin 0),
         .vertex 6 (F32.fin 0), .vertex 7 (F32.fin 1), .vertex 8 (F32.fin 0),
         .index 0 0, .index 1 1, .index 2 2])
    | _, _ => (geom, [])
  -- rtcCommitGeometry(geom)
  let geom : RTCGeometry := { filled.1 with committed := true }
  -- rtcAttachGeometry(scene, geom); rtcReleaseGeometry(geom)
  let scene : RTCScene := { scene with geometries := scene.geometries ++ [geom] }
  -- rtcCommitScene(scene)
  let scene : RTCScene := { scene with committed := true }
  { scene := scene, stores := filled.2 }

/-! ## savePPM (main.cpp 194-224) -/

/-- What can go wrong in the C++ code beyond its own control flow. -/
inductive Fault
  | divByZero
  | outOfBounds
  | fuel
  deriving DecidableEq, Repr

/-- Decimal text of an `int`, as `operator<<` writes it. -/
def showInt (z : Int) : List Char :=
  if z < 0 then [Char.ofNat 45] ++ Nat.toDigits 10 z.natAbs else Nat.toDigits 10 z.natAbs

/-- The space character. -/
def sp : Char := Char.ofNat 32

/-- The newline character. -/
def nl : Char := Char.ofNat 10

/-- The output stream while `savePPM` runs: the text written so far and the
indices of `data` read so far (ghost). -/
structure PPMStream where
  out : List Char
  reads : List Int
  deriving DecidableEq

/-- The pixel loop `for (int i = 0; i < n; ++i)` of `savePPM`, `n` being the value
of `width * height`. The first argument bounds the number of iterations. -/
def savePPMLoop (width n : Int) (data : List Byte) : Nat → Int → PPMStream → Except Fault PPMStream
  | 0, i, s => if i < n then .error .fuel else .ok s
  | f + 1, i, s =>
    if i < n then
      -- unsigned char c = data[i];
      if i < 0 ∨ (data.length : Int) ≤ i then .error .outOfBounds
      else
        let c : Int := ((data.getD i.toNat 0).val : Int)
        let s : PPMStream :=
          { out := s.out ++ showInt c ++ [sp] ++ showInt c ++ [sp] ++ showInt c ++ [sp],
            reads := s.reads ++ [i] }
        -- if ((i + 1) % width == 0) outFile << "\n";
        if width = 0 then .error .divByZero
        else
          let s : PPMStream :=
            if (wrap32 (i + 1)).tmod width = 0 then { s with out := s.out ++ [nl] } else s
          savePPMLoop width n data f (wrap32 (i + 1)) s
    else .ok s

/-- The header `P3\n<width> <height>\n255\n`. -/
def ppmHeader (width height : Int) : List Char :=
  [Char.ofNat 80, Char.ofNat 51, nl] ++ showInt width ++ [sp] ++ showInt height ++ [nl]
    ++ showInt 255 ++ [nl]

/-- What `savePPM` sends to the stream once the file is open. -/
def savePPMStream (width height : Int) (data : List Byte) : Except Fault PPMStream :=
  let n := wrap32 (width * height)
  savePPMLoop width n data n.toNat 0 { out := ppmHeader width height, reads := [] }

/-- The files on disk: the content of each existing file, and which paths can be
opened for writing. -/
structure FileStore where
  files : String → Option (List Char)
  writable : String → Bool

/-- The store after the file at `path` received content `text`. -/
def FileStore.put (fs : FileStore) (path : String) (text : List Char) : FileStore :=
  { fs with files := fun p => if p = path then some text else fs.files p }

/-- The function `savePPM`. -/
def savePPM (fs : FileStore) (filename : String) (width height : Int) (data : List Byte) :
    Except Fault FileStore :=
  -- std::ofstream outFile(filename, std::ios::binary); if (!outFile) return;
  if fs.writable filename then
    match savePPMStream width height data with
    | .ok s => .ok (fs.put filename s.out)
    | .error e => .error e
  else .ok fs

/-! ## castRay and renderImage (main.cpp 133-192, 248-274) -/

/-- The program state `renderImage` works on: the static raster `pixels`, the
global `g_lastIntersection`, the files, and two ghost traces (the ray of every
`rtcIntersect1` call, the index of every raster store). -/
structure World where
  pixels : List Byte
  g_lastIntersection : Bool
  fs : FileStore
  rays : List RTCRayHit
  stores : List Nat

/-- The ray-hit structure `castRay` fills in before calling `rtcIntersect1`. -/
def initRayHit (ox oy oz dx dy dz : F32) : RTCRayHit :=
  { org_x := ox, org_y := oy, org_z := oz, dir_x := dx, dir_y := dy, dir_z := dz,
    tnear := F32.fin 0, tfar := F32.pinf, mask := 4294967295, flags := 0,
    geomID := RTC_INVALID_GEOMETRY_ID, instID0 := RTC_INVALID_GEOMETRY_ID }

/-- The function `castRay`; `rtcIntersect1` is the Embree intersection routine. -/
def castRay (rtcIntersect1 : RTCScene → RTCRayHit → RTCRayHit) (scene : RTCScene)
    (ox oy oz dx dy dz : F32) (w : World) : World :=
  let rayhit := initRayHit ox oy oz dx dy dz
  let w : World := { w with rays := w.rays ++ [rayhit] }
  let rayhit := rtcIntersect1 scene rayhit
  if rayhit.geomID ≠ RTC_INVALID_GEOMETRY_ID then
    { w with g_lastIntersection := true }
  else
    { w with g_lastIntersection := false }

/-- Body of the inner loop of `renderImage` at pixel `(x, y)`. -/
def renderPixel (rtcIntersect1 : RTCScene → RTCRayHit → RTCRayHit) (scene : RTCScene)
    (width height : Nat) (y x : Nat) (w : World) : Except Fault World :=
  let fx := F32.div (F32.ofInt (x : Int)) (F32.ofInt ((width : Int) - 1))
  let fy := F32.div (F32.ofInt (y : Int)) (F32.ofInt ((height : Int) - 1))
  let w := castRay rtcIntersect1 scene fx fy (F32.fin (-1)) (F32.fin 0) (F32.fin 0) (F32.fin 1) w
  let idx := y * width + x
  if idx < w.pixels.length then
    .ok { w with
      pixels := w.pixels.set idx (if w.g_lastIntersection then 255 else 0),
      stores := w.stores ++ [idx] }
  else .error .outOfBounds

/-- The inner loop `for (int x = ...; x < width; ++x)`: `count` iterations from `x`. -/
def renderCols (rtcIntersect1 : RTCScene → RTCRayHit → RTCRayHit) (scene : RTCScene)
    (width height : Nat) (y : Nat) : Nat → Nat → World → Except Fault World
  | 0, _, w => .ok w
  | count + 1, x, w =>
    match renderPixel rtcIntersect1 scene width height y x w with
    | .ok w => renderCols rtcIntersect1 scene width height y count (x + 1) w
    | .error e => .error e

/-- The outer loop `for (int y = ...; y < height; ++y)`: `count` iterations from `y`. -/
def renderRows (rtcIntersect1 : RTCScene → RTCRayHit → RTCRayHit) (scene : RTCScene)
    (width height : Nat) : Nat → Nat → World → Except Fault World
  | 0, _, w => .ok w
  | count + 1, y, w =>
    match renderCols rtcIntersect1 scene width height y width 0 w with
    | .ok w => renderRows rtcIntersect1 scene width height count (y + 1) w
    | .error e => .error e

/-- The two nested loops of `renderImage` (`width = height = 256`). -/
def renderLoop (rtcIntersect1 : RTCScene → RTCRayHit → RTCRayHit) (scene : RTCScene)
    (w : World) : Except Fault World :=
  renderRows rtcIntersect1 scene 256 256 256 0 w

/-- The function `renderImage`: the loops, then `savePPM("out.ppm", ...)`. -/
def renderImage (rtcIntersect1 : RTCScene → RTCRayHit → RTCRayHit) (scene : RTCScene)
    (w : World) : Except Fault World :=
  match renderLoop rtcIntersect1 scene w with
  | .ok w =>
    match savePPM w.fs "out.ppm" 256 256 w.pixels with
    | .ok fs => .ok { w with fs := fs }
    | .error e => .error e
  | .error e => .error e

/-! ## The prescribed file text, and closed forms of the loops -/

/-- Text of pixel `i` as the file format describes it: the value three times, each
followed by a space, and a newline when `i + 1` is a multiple of the width. -/
def ppmSpecPixel (width : Int) (data : List Byte) (i : Nat) : List Char :=
  let v := showInt ((data.getD i 0).val : Int)
  v ++ [sp] ++ v ++ [sp] ++ v ++ [sp] ++ (if ((i : Int) + 1) % width = 0 then [nl] else [])

/-- The file the format description prescribes for a `width` x `height` raster. -/
def ppmSpecText (width height : Int) (data : List Byte) : List Char :=
  "P3\n".toList ++ showInt width ++ " ".toList ++ showInt height ++ "\n255\n".toList
    ++ (List.range (width * height).toNat).flatMap (ppmSpecPixel width data)

/-- Text the loop body of `savePPM` appends in iteration `i`. -/
def loopChunk (width : Int) (data : List Byte) (i : Nat) : List Char :=
  let v := showInt ((data.getD i 0).val : Int)
  v ++ [sp] ++ v ++ [sp] ++ v ++ [sp] ++ (if ((i : Int) + 1).tmod width = 0 then [nl] else [])

/-- The ray `renderImage` builds for pixel `(x, y)` of a `width` x `height` grid. -/
def pixelRay (width height x y : Nat) : RTCRayHit :=
  initRayHit (F32.div (F32.ofInt (x : Int)) (F32.ofInt ((width : Int) - 1)))
    (F32.div (F32.ofInt (y : Int)) (F32.ofInt ((height : Int) - 1)))
    (F32.fin (-1)) (F32.fin 0) (F32.fin 0) (F32.fin 1)

/-- Whether the intersector reports a hit for a ray: it leaves a valid geometry id. -/
def reportsHit (rtcIntersect1 : RTCScene → RTCRayHit → RTCRayHit) (scene : RTCScene)
    (ray : RTCRayHit) : Bool :=
  decide ((rtcIntersect1 scene ray).geomID ≠ RTC_INVALID_GEOMETRY_ID)

/-- The intensity the classifier assigns to pixel `(x, y)`: 255 on a hit, 0 on a miss. -/
def pixelValue (rtcIntersect1 : RTCScene → RTCRayHit → RTCRayHit) (scene : RTCScene)
    (width height x y : Nat) : Byte :=
  if reportsHit rtcIntersect1 scene (pixelRay width height x y) then 255 else 0

/-- The raster `renderImage` computes, in closed form. -/
def rasterOf (rtcIntersect1 : RTCScene → RTCRayHit → RTCRayHit) (scene : RTCScene) : List Byte :=
  (List.range 65536).map (fun i => pixelValue rtcIntersect1 scene 256 256 (i % 256) (i / 256))

/-- The file store after `savePPM("out.ppm", 256, 256, raster)`. -/
def storeAfterSave (fs : FileStore) (raster : List Byte) : FileStore :=
  if fs.writable "out.ppm" then fs.put "out.ppm" (ppmSpecText 256 256 raster) else fs

/-- The binary32 quotient `(float)x / (n - 1)` that `renderImage` computes for
coordinate `x` of an axis with `n` pixels. -/
def pixelCoord (n x : Nat) : F32 :=
  F32.div (F32.ofInt (x : Int)) (F32.ofInt ((n : Int) - 1))

/-- The rational value of `pixelCoord 256 x` (0 if it were not finite). -/
def coordValue (x : Nat) : ℚ := ((pixelCoord 256 x).toRat?).getD 0

/-! ## Specification-side definitions: an exact ray-triangle intersector -/

/-- A point or vector of space with rational coordinates. -/
abbrev Vec3 := ℚ × ℚ × ℚ

/-- Difference of two vectors. -/
def vsub (a b : Vec3) : Vec3 := (a.1 - b.1, a.2.1 - b.2.1, a.2.2 - b.2.2)

/-- Scalar product. -/
def vdot (a b : Vec3) : ℚ := a.1 * b.1 + a.2.1 * b.2.1 + a.2.2 * b.2.2

/-- Vector product. -/
def vcross (a b : Vec3) : Vec3 :=
  (a.2.1 * b.2.2 - a.2.2 * b.2.1, a.2.2 * b.1 - a.1 * b.2.2, a.1 * b.2.1 - a.2.1 * b.1)

/-- Exact intersection of the line `o + t d` with the closed triangle `v0 v1 v2`
(edges and vertices included): the parameter `t`, or `none` when the line misses
the triangle or is parallel to its plane. Barycentric coordinates by Cramer's rule. -/
def triangleHit (o d v0 v1 v2 : Vec3) : Option ℚ :=
  let e1 := vsub v1 v0
  let e2 := vsub v2 v0
  let p := vcross d e2
  let det := vdot e1 p
  if det = 0 then none
  else
    let tv := vsub o v0
    let u := vdot tv p / det
    let q := vcross tv e1
    let v := vdot d q / det
    let t := vdot e2 q / det
    if 0 ≤ u ∧ 0 ≤ v ∧ u + v ≤ 1 then some t else none

/-- Whether `t` lies in the ray interval `[tnear, tfar)`. -/
def inInterval (tnear tfar : F32) (t : ℚ) : Bool :=
  (match tnear with
    | F32.fin a => decide (a ≤ t)
    | F32.ninf => true
    | _ => false)
  && (match tfar with
    | F32.fin b => decide (t < b)
    | F32.pinf => true
    | _ => false)

/-- Vertex `k` of a vertex buffer (three floats per vertex), when present and finite. -/
def vertexAt (vs : List F32) (k : Nat) : Option Vec3 :=
  match vs[3 * k]?, vs[3 * k + 1]?, vs[3 * k + 2]? with
  | some (F32.fin a), some (F32.fin b), some (F32.fin c) => some (a, b, c)
  | _, _, _ => none

/-- The triangles of a geometry; a geometry with a null buffer has none. -/
def trianglesOf (g : RTCGeometry) : List (Vec3 × Vec3 × Vec3) :=
  match g.vertices, g.indices with
  | some vs, some ids =>
    (List.range (ids.length / 3)).filterMap (fun j =>
      match ids[3 * j]?, ids[3 * j + 1]?, ids[3 * j + 2]? with
      | some a, some b, some c =>
        match vertexAt vs a, vertexAt vs b, vertexAt vs c with
        | some v0, some v1, some v2 => some (v0, v1, v2)
        | _, _, _ => none
      | _, _, _ => none)
  | _, _ => []

/-- Origin and direction of a ray whose six components are finite. -/
def rayLine (r : RTCRayHit) : Option (Vec3 × Vec3) :=
  match r.org_x, r.org_y, r.org_z, r.dir_x, r.dir_y, r.dir_z with
  | F32.fin a, F32.fin b, F32.fin c, F32.fin d, F32.fin e, F32.fin f =>
    some ((a, b, c), (d, e, f))
  | _, _, _, _, _, _ => none

/-- Hits of a ray on the triangles of one geometry with id `gid`: distance and id. -/
def geometryHits (r : RTCRayHit) (o d : Vec3) (gid : Nat) (g : RTCGeometry) : List (ℚ × Nat) :=
  (trianglesOf g).filterMap (fun tri =>
    match triangleHit o d tri.1 tri.2.1 tri.2.2 with
    | some t => if inInterval r.tnear r.tfar t then some (t, gid) else none
    | none => none)

/-- All hits of a ray on the geometries `gs`, numbered from `gid`. -/
def sceneHits (r : RTCRayHit) (o d : Vec3) : Nat → List RTCGeometry → List (ℚ × Nat)
  | _, [] => []
  | gid, g :: gs => geometryHits r o d gid g ++ sceneHits r o d (gid + 1) gs

/-- The hit with the least distance. -/
def nearestHit : List (ℚ × Nat) → Option (ℚ × Nat)
  | [] => none
  | h :: hs =>
    match nearestHit hs with
    | none => some h
    | some b => if b.1 < h.1 then some b else some h

/-- The exact intersector of the contract in the specification: on a committed
scene it returns the nearest intersection of the ray with the triangles within
`[tnear, tfar)`, computed in exact arithmetic, by storing the geometry id and the
distance; otherwise it leaves the ray-hit structure as it is (no hit). -/
def exactIntersect (scene : RTCScene) (r : RTCRayHit) : RTCRayHit :=
  if scene.committed then
    match rayLine r with
    | some (o, d) =>
      match nearestHit (sceneHits r o d 0 scene.geometries) with
      | some (t, gid) => { r with geomID := gid, tfar := F32.fin t }
      | none => r
    | none => r
  else r

/-- The scene of the reference triangle (0,0,0)-(1,0,0)-(0,1,0). -/
def referenceScene : RTCScene :=
  { geometries :=
      [{ vertices := some [F32.fin 0, F32.fin 0, F32.fin 0, F32.fin 1, F32.fin 0, F32.fin 0,
                           F32.fin 0, F32.fin 1, F32.fin 0],
         indices := some [0, 1, 2], committed := true }],
    committed := true }

/-! ## Specification-side definitions: reading a plain P3 image -/

/-- White space between the tokens of a plain PPM file. -/
def isBlank (c : Char) : Bool :=
  c = sp || c = nl || c = Char.ofNat 9 || c = Char.ofNat 13

/-- Split a text at white space; `cur` is the token being read, reversed. -/
def tokensAux : List Char → List Char → List (List Char)
  | [], cur => if cur = [] then [] else [cur.reverse]
  | c :: cs, cur =>
    if isBlank c then
      (if cur = [] then tokensAux cs [] else cur.reverse :: tokensAux cs [])
    else tokensAux cs (c :: cur)

/-- The white-space separated tokens of a text. -/
def tokens (text : List Char) : List (List Char) := tokensAux text []

/-- Value of a decimal digit. -/
def digitValue (c : Char) : Nat := c.toNat - 48

/-- Value of a string of decimal digits. -/
def digitsValue (t : List Char) : Nat := t.foldl (fun a c => a * 10 + digitValue c) 0

/-- Read a token as a decimal number. -/
def parseNat (t : List Char) : Option Nat :=
  if t ≠ [] ∧ t.all Char.isDigit = true then some (digitsValue t) else none

/-- Read every token as a decimal number. -/
def parseAll : List (List Char) → Option (List Nat)
  | [] => some []
  | t :: ts =>
    match parseNat t, parseAll ts with
    | some n, some ns => some (n :: ns)
    | _, _ => none

/-- Group a list of samples into (red, green, blue) triples. -/
def triples : List Nat → Option (List (Nat × Nat × Nat))
  | [] => some []
  | r :: g :: b :: rest =>
    match triples rest with
    | some ts => some ((r, g, b) :: ts)
    | none => none
  | _ => none

/-- A parsed plain PPM image. -/
structure P3Image where
  width : Nat
  height : Nat
  maxval : Nat
  pixels : List (Nat × Nat × Nat)
  deriving DecidableEq

/-- Read a plain PPM file: the tag `P3`, then white-space separated decimal
numbers: width, height, maximum value, and the samples in triples. -/
def parseP3 (text : List Char) : Option P3Image :=
  match tokens text with
  | tag :: rest =>
    if tag = [Char.ofNat 80, Char.ofNat 51] then
      match parseAll rest with
      | some (w :: h :: m :: samples) =>
        match triples samples with
        | some px => some { width := w, height := h, maxval := m, pixels := px }
        | none => none
      | _ => none
    else none
  | [] => none

/-- The decimal text of sample `i` of the buffer. -/
def sampleText (data : List Byte) (i : Nat) : List Char :=
  showInt ((data.getD i 0).val : Int)

/-- The value of sample `i` of the buffer. -/
def sampleValue (data : List Byte) (i : Nat) : Nat := (data.getD i 0).val

/-! # Theorems -/

/-! ## savePPM: the loop -/

theorem wrap32_eq_self (z : Int) (h1 : -2147483648 ≤ z) (h2 : z ≤ 2147483647) : wrap32 z = z := by
  unfold wrap32; omega

theorem savePPMLoop_run (width n : Int) (data : List Byte) (hn : n ≤ 2147483647)
    (hlen : n ≤ (data.length : Int)) (hw : width ≠ 0 ∨ n ≤ 0) :
    ∀ (fuel i : Nat) (s : PPMStream), (i : Int) + fuel = n →
      savePPMLoop width n data fuel (i : Int) s =
        .ok { out := s.out ++ (List.range' i fuel).flatMap (loopChunk width data),
              reads := s.reads ++ (List.range' i fuel).map (fun k : Nat => (k : Int)) } := by
  intro fuel
  induction fuel with
  | zero =>
    intro i s h
    have : ¬ ((i : Int) < n) := by omega
    simp [savePPMLoop, this]
  | succ f ih =>
    intro i s h
    have h1 : (i : Int) < n := by omega
    have h2 : ¬ ((i : Int) < 0 ∨ (data.length : Int) ≤ i) := by omega
    have h3 : width ≠ 0 := by
      rcases hw with hw | hw
      · exact hw
      · omega
    have h4 : wrap32 ((i : Int) + 1) = ((i + 1 : Nat) : Int) := by
      rw [wrap32_eq_self] <;> omega
    have h5 : (((i + 1 : Nat) : Int)) + f = n := by omega
    simp only [savePPMLoop, h1, h2, h3, if_true, if_false, h4]
    rw [ih (i + 1) _ h5]
    simp only [List.range'_succ, List.flatMap_cons, List.map_cons, loopChunk, Int.toNat_ofNat]
    by_cases hc : (((i + 1 : Nat) : Int)).tmod width = 0
    · have hc2 : ((i : Int) + 1).tmod width = 0 := by simpa using hc
      simp [hc, hc2, List.append_assoc]
    · have hc2 : ¬ ((i : Int) + 1).tmod width = 0 := by simpa using hc
      simp [hc, hc2, List.append_assoc]

/-- The stream of `savePPM` in closed form, whenever `width * height` fits an `int`
and the buffer has at least that many bytes. -/
theorem savePPMStream_run (width height : Int) (data : List Byte)
    (hlo : -2147483648 ≤ width * height) (hhi : width * height ≤ 2147483647)
    (hlen : width * height ≤ (data.length : Int)) :
    savePPMStream width height data =
      .ok { out := ppmHeader width height ++
              (List.range (width * height).toNat).flatMap (loopChunk width data),
            reads := (List.range (width * height).toNat).map (fun k : Nat => (k : Int)) } := by
  unfold savePPMStream
  rw [wrap32_eq_self _ hlo hhi]
  by_cases hneg : width * height ≤ 0
  · have h0 : (width * height).toNat = 0 := by omega
    have h1 : ¬ ((0 : Int) < width * height) := by omega
    simp [h0, savePPMLoop, h1]
  · have hw : width ≠ 0 := by
      intro h; apply hneg; simp [h]
    have := savePPMLoop_run width (width * height) data hhi hlen (Or.inl hw)
      (width * height).toNat 0 { out := ppmHeader width height, reads := [] } (by omega)
    simpa [List.range_eq_range'] using this

theorem loopChunk_eq_spec (width : Int) (data : List Byte) (i : Nat) (hw : 1 ≤ width) :
    loopChunk width data i = ppmSpecPixel width data i := by
  unfold loopChunk ppmSpecPixel
  rw [Int.tmod_eq_emod (by omega) (by omega)]

theorem ppmHeader_eq (width height : Int) :
    ppmHeader width height =
      "P3\n".toList ++ showInt width ++ " ".toList ++ showInt height ++ "\n255\n".toList := by
  have h1 : showInt 255 = ['2', '5', '5'] := by decide
  have h2 : "P3\n".toList = [Char.ofNat 80, Char.ofNat 51, nl] := by decide
  have h3 : " ".toList = [sp] := by decide
  have h4 : "\n255\n".toList = [nl, '2', '5', '5', nl] := by decide
  rw [ppmHeader, h1, h2, h3, h4]
  simp only [List.append_assoc, List.cons_append, List.nil_append]

/-! ## Decimal text -/

theorem toDigitsCore_acc (f n : Nat) (ds : List Char) :
    Nat.toDigitsCore 10 f n ds = Nat.toDigitsCore 10 f n [] ++ ds := by
  induction f generalizing n ds with
  | zero => simp [Nat.toDigitsCore]
  | succ f ih =>
    simp only [Nat.toDigitsCore]
    split
    · simp
    · rw [ih (n / 10) (_ :: ds), ih (n / 10) [_]]; simp

theorem digitChar_isDigit (k : Nat) (h : k < 10) : (Nat.digitChar k).isDigit = true := by
  interval_cases k <;> decide

theorem toDigitsCore_isDigit (f n : Nat) :
    ∀ c ∈ Nat.toDigitsCore 10 f n [], c.isDigit = true := by
  induction f generalizing n with
  | zero => simp [Nat.toDigitsCore]
  | succ f ih =>
    intro c hc
    simp only [Nat.toDigitsCore] at hc
    split at hc
    · simp only [List.mem_singleton] at hc
      rw [hc]; exact digitChar_isDigit _ (Nat.mod_lt _ (by decide))
    · rw [toDigitsCore_acc] at hc
      simp only [List.mem_append, List.mem_singleton] at hc
      rcases hc with hc | hc
      · exact ih _ c hc
      · rw [hc]; exact digitChar_isDigit _ (Nat.mod_lt _ (by decide))

theorem toDigits_isDigit (n : Nat) : ∀ c ∈ Nat.toDigits 10 n, c.isDigit = true :=
  toDigitsCore_isDigit _ _

theorem toDigitsCore_ne_nil (f n : Nat) : Nat.toDigitsCore 10 (f + 1) n [] ≠ [] := by
  simp only [Nat.toDigitsCore]
  split
  · simp
  · rw [toDigitsCore_acc]; simp

theorem toDigits_ne_nil (n : Nat) : Nat.toDigits 10 n ≠ [] := toDigitsCore_ne_nil _ _

theorem nl_not_mem_showInt (z : Int) : nl ∉ showInt z := by
  intro h
  unfold showInt at h
  split at h
  · simp only [List.mem_append, List.mem_singleton] at h
    rcases h with h | h
    · exact absurd h (by decide)
    · exact absurd (toDigits_isDigit _ _ h) (by decide)
  · exact absurd (toDigits_isDigit _ _ h) (by decide)

theorem count_nl_showInt (z : Int) : (showInt z).count nl = 0 :=
  List.count_eq_zero.mpr (nl_not_mem_showInt z)

/-! ## Newlines of the PPM text -/

theorem count_flatMap_indicator {α : Type} (a : Char) (f : α → List Char) (p : α → Bool)
    (l : List α) (h : ∀ i ∈ l, (f i).count a = if p i then 1 else 0) :
    (l.flatMap f).count a = l.countP p := by
  induction l with
  | nil => simp
  | cons x xs ih =>
    have hx := h x (List.mem_cons_self _ _)
    have hxs := ih (fun i hi => h i (List.mem_cons_of_mem _ hi))
    rw [List.flatMap_cons, List.count_append, hx, hxs, List.countP_cons]
    omega

theorem countP_row_end_segment (W H : Nat) (k : Nat) (hk : k ≤ W) :
    (List.range' (W * H) k).countP (fun i => decide ((i + 1) % W = 0)) =
      if k = W ∧ 0 < W then 1 else 0 := by
  induction k with
  | zero =>
    have : ¬ (0 = W ∧ 0 < W) := by omega
    simp [this]
  | succ k ih =>
    have hk2 : k ≤ W := by omega
    have hne : ¬ (k = W ∧ 0 < W) := by omega
    rw [List.range'_concat, List.countP_append, ih hk2, if_neg hne]
    simp only [Nat.one_mul, List.countP_cons, List.countP_nil, decide_eq_true_eq, Nat.zero_add]
    have hmod : (W * H + k + 1) % W = (k + 1) % W := by
      rw [Nat.add_assoc, Nat.mul_add_mod]
    rw [hmod]
    by_cases hkw : k + 1 = W
    · have h1 : (k + 1) % W = 0 := by rw [hkw]; exact Nat.mod_self _
      have h2 : k + 1 = W ∧ 0 < W := ⟨hkw, by omega⟩
      simp [h1, h2]
    · have h1 : (k + 1) % W ≠ 0 := by
        rw [Nat.mod_eq_of_lt (by omega)]; omega
      have h2 : ¬ (k + 1 = W ∧ 0 < W) := fun h => hkw h.1
      simp [h1, h2]

theorem countP_row_ends (W H : Nat) (hW : 0 < W) :
    (List.range (W * H)).countP (fun i => decide ((i + 1) % W = 0)) = H := by
  induction H with
  | zero => simp
  | succ H ih =>
    have hsplit : List.range (W * (H + 1)) = List.range (W * H) ++ List.range' (W * H) W := by
      rw [List.range_eq_range', List.range_eq_range']
      have := List.range'_append 0 (W * H) W 1
      simp only [Nat.zero_add, Nat.one_mul] at this
      rw [this]
      congr 1
      ring
    rw [hsplit, List.countP_append, ih, countP_row_end_segment W H W (le_refl _)]
    simp [hW]

theorem count_nl_ppmHeader (width height : Int) : (ppmHeader width height).count nl = 3 := by
  have h1 : List.count nl [Char.ofNat 80, Char.ofNat 51, nl] = 1 := by decide
  have h2 : List.count nl [sp] = 0 := by decide
  have h3 : List.count nl [nl] = 1 := by decide
  simp only [ppmHeader, List.count_append, count_nl_showInt, h1, h2, h3]

theorem count_nl_ppmSpecPixel (width : Int) (data : List Byte) (i : Nat) :
    (ppmSpecPixel width data i).count nl =
      if decide (((i : Int) + 1) % width = 0) then 1 else 0 := by
  have h2 : List.count nl [sp] = 0 := by decide
  have h3 : List.count nl [nl] = 1 := by decide
  unfold ppmSpecPixel
  by_cases h : ((i : Int) + 1) % width = 0
  · simp only [h, if_true, List.count_append, count_nl_showInt, h2, h3, decide_True]
  · simp only [h, if_false, List.count_append, count_nl_showInt, h2, decide_False,
      List.count_nil]
    simp

theorem count_nl_ppmSpecText (width height : Int) (data : List Byte)
    (hw : 1 ≤ width) (hh : 0 ≤ height) :
    (((ppmSpecText width height data).count nl : Nat) : Int) = 3 + height := by
  obtain ⟨W, rfl⟩ := Int.eq_ofNat_of_zero_le (by omega : (0 : Int) ≤ width)
  obtain ⟨H, rfl⟩ := Int.eq_ofNat_of_zero_le hh
  have hW : 0 < W := by omega
  unfold ppmSpecText
  rw [← ppmHeader_eq, List.count_append, count_nl_ppmHeader,
    count_flatMap_indicator nl _ _ _ (fun i _ => count_nl_ppmSpecPixel (W : Int) data i)]
  have hn : ((W : Int) * (H : Int)).toNat = W * H := by
    rw [← Int.natCast_mul]; exact Int.toNat_natCast _
  have hp : (fun i : Nat => decide (((i : Int) + 1) % (W : Int) = 0)) =
      (fun i : Nat => decide ((i + 1) % W = 0)) := by
    funext i
    congr 1
    apply propext
    constructor
    · intro h; exact_mod_cast h
    · intro h; exact_mod_cast h
  rw [hn, hp, countP_row_ends W H hW]
  push_cast
  ring

theorem savePPM_spec (fs : FileStore) (filename : String) (width height : Int)
    (data : List Byte) (hw : 1 ≤ width) (hh : 0 ≤ height)
    (hfit : width * height ≤ 2147483647) (hlen : (data.length : Int) = width * height)
    (hopen : fs.writable filename = true) :
    savePPM fs filename width height data
      = .ok (fs.put filename (ppmSpecText width height data)) := by
  have hpos : 0 ≤ width * height := Int.mul_nonneg (by omega) hh
  have hrun := savePPMStream_run width height data (by omega) hfit (by omega)
  have hchunk : loopChunk width data = ppmSpecPixel width data := by
    funext i; exact loopChunk_eq_spec width data i hw
  simp only [savePPM, hopen, if_true, hrun, hchunk]
  rw [ppmSpecText, ← ppmHeader_eq]

theorem savePPM_wrapped_to_zero (fs : FileStore) (filename : String) (data : List Byte)
    (hopen : fs.writable filename = true) :
    savePPM fs filename 65536 65536 data = .ok (fs.put filename (ppmHeader 65536 65536)) := by
  have hn : wrap32 4294967296 = 0 := by decide
  simp [savePPM, hopen, savePPMStream, hn, savePPMLoop]

theorem ppmHeader_ne_specText (data : List Byte) :
    ppmHeader 65536 65536 ≠ ppmSpecText 65536 65536 data := by
  intro h
  rw [ppmSpecText, ← ppmHeader_eq] at h
  have h2 := List.self_eq_append_right.mp h
  rw [List.flatMap_eq_nil_iff] at h2
  have h3 := h2 0 (by rw [List.mem_range]; decide)
  have h4 : sp ∈ ppmSpecPixel 65536 data 0 := by
    simp [ppmSpecPixel]
  rw [h3] at h4
  exact absurd h4 (List.not_mem_nil _)

/-! ## Reading back what savePPM wrote -/

theorem tokensAux_token (t : List Char) (ht : ∀ c ∈ t, isBlank c = false) (b : Char)
    (hb : isBlank b = true) (rest : List Char) :
    ∀ cur : List Char, cur.reverse ++ t ≠ [] →
      tokensAux (t ++ b :: rest) cur = (cur.reverse ++ t) :: tokensAux rest [] := by
  induction t with
  | nil =>
    intro cur hne
    have hcur : cur ≠ [] := by
      intro h; apply hne; simp [h]
    simp [tokensAux, hb, hcur]
  | cons a t ih =>
    intro cur _
    have ha : isBlank a = false := ht a (List.mem_cons_self _ _)
    have h := ih (fun c hc => ht c (List.mem_cons_of_mem _ hc)) (a :: cur) (by simp)
    have hstep : tokensAux ((a :: t) ++ b :: rest) cur = tokensAux (t ++ b :: rest) (a :: cur) := by
      show tokensAux (a :: (t ++ b :: rest)) cur = _
      simp only [tokensAux, ha, Bool.false_eq_true, if_false]
    rw [hstep, h]
    simp

theorem tokens_token (t : List Char) (ht : ∀ c ∈ t, isBlank c = false) (hne : t ≠ [])
    (b : Char) (hb : isBlank b = true) (rest : List Char) :
    tokens (t ++ b :: rest) = t :: tokens rest := by
  have := tokensAux_token t ht b hb rest [] (by simpa using hne)
  simpa [tokens] using this

theorem tokens_blank (b : Char) (hb : isBlank b = true) (rest : List Char) :
    tokens (b :: rest) = tokens rest := by
  simp [tokens, tokensAux, hb]

theorem isDigit_not_blank (c : Char) (h : c.isDigit = true) : isBlank c = false := by
  by_contra hb
  have hb2 : isBlank c = true := by simpa using hb
  simp only [isBlank, Bool.or_eq_true, decide_eq_true_eq] at hb2
  rcases hb2 with ((h1 | h1) | h1) | h1 <;> rw [h1] at h <;> exact absurd h (by decide)

theorem showInt_nonneg (z : Int) (hz : 0 ≤ z) : showInt z = Nat.toDigits 10 z.toNat := by
  unfold showInt
  have : ¬ z < 0 := by omega
  rw [if_neg this]
  congr 1
  omega

theorem showInt_no_blank (z : Int) (hz : 0 ≤ z) : ∀ c ∈ showInt z, isBlank c = false := by
  intro c hc
  rw [showInt_nonneg z hz] at hc
  exact isDigit_not_blank c (toDigits_isDigit _ c hc)

theorem showInt_ne_nil (z : Int) (hz : 0 ≤ z) : showInt z ≠ [] := by
  rw [showInt_nonneg z hz]; exact toDigits_ne_nil _

theorem digitValue_digitChar (k : Nat) (h : k < 10) : digitValue (Nat.digitChar k) = k := by
  interval_cases k <;> decide

theorem digitsValue_append (l : List Char) (c : Char) :
    digitsValue (l ++ [c]) = digitsValue l * 10 + digitValue c := by
  simp [digitsValue, List.foldl_append]

theorem digitsValue_toDigitsCore (f : Nat) :
    ∀ n, n < f → digitsValue (Nat.toDigitsCore 10 f n []) = n := by
  induction f with
  | zero => intro n h; omega
  | succ f ih =>
    intro n hn
    simp only [Nat.toDigitsCore]
    split
    · rename_i h0
      have : digitsValue [Nat.digitChar (n % 10)] = digitValue (Nat.digitChar (n % 10)) := by
        simp [digitsValue]
      rw [this, digitValue_digitChar _ (Nat.mod_lt _ (by decide))]
      omega
    · rename_i h0
      rw [toDigitsCore_acc, digitsValue_append, ih (n / 10) (by omega),
        digitValue_digitChar _ (Nat.mod_lt _ (by decide))]
      omega

theorem parseNat_toDigits (n : Nat) : parseNat (Nat.toDigits 10 n) = some n := by
  unfold parseNat
  have h1 : Nat.toDigits 10 n ≠ [] := toDigits_ne_nil n
  have h2 : (Nat.toDigits 10 n).all Char.isDigit = true := by
    rw [List.all_eq_true]; exact toDigits_isDigit n
  rw [if_pos ⟨h1, h2⟩]
  congr 1
  exact digitsValue_toDigitsCore (n + 1) n (by omega)

theorem parseNat_showInt (z : Int) (hz : 0 ≤ z) : parseNat (showInt z) = some z.toNat := by
  rw [showInt_nonneg z hz, parseNat_toDigits]

theorem sampleText_no_blank (data : List Byte) (i : Nat) :
    ∀ c ∈ sampleText data i, isBlank c = false :=
  showInt_no_blank _ (Int.natCast_nonneg _)

theorem sampleText_ne_nil (data : List Byte) (i : Nat) : sampleText data i ≠ [] :=
  showInt_ne_nil _ (Int.natCast_nonneg _)

theorem parseNat_sampleText (data : List Byte) (i : Nat) :
    parseNat (sampleText data i) = some (sampleValue data i) := by
  unfold sampleText sampleValue
  rw [parseNat_showInt _ (Int.natCast_nonneg _)]
  simp

theorem sp_blank : isBlank sp = true := by decide

theorem nl_blank : isBlank nl = true := by decide

theorem tokens_ppmSpecPixel (width : Int) (data : List Byte) (i : Nat) (rest : List Char) :
    tokens (ppmSpecPixel width data i ++ rest)
      = sampleText data i :: sampleText data i :: sampleText data i :: tokens rest := by
  have hshape : ppmSpecPixel width data i ++ rest =
      sampleText data i ++ sp :: (sampleText data i ++ sp :: (sampleText data i ++ sp ::
        ((if ((i : Int) + 1) % width = 0 then [nl] else []) ++ rest))) := by
    simp only [ppmSpecPixel, sampleText, List.append_assoc, List.cons_append, List.nil_append]
  rw [hshape,
    tokens_token _ (sampleText_no_blank data i) (sampleText_ne_nil data i) sp sp_blank,
    tokens_token _ (sampleText_no_blank data i) (sampleText_ne_nil data i) sp sp_blank,
    tokens_token _ (sampleText_no_blank data i) (sampleText_ne_nil data i) sp sp_blank]
  by_cases h : ((i : Int) + 1) % width = 0
  · rw [if_pos h, List.cons_append, List.nil_append, tokens_blank nl nl_blank]
  · rw [if_neg h, List.nil_append]

theorem tokens_pixels (width : Int) (data : List Byte) (l : List Nat) :
    tokens (l.flatMap (ppmSpecPixel width data))
      = l.flatMap (fun i => [sampleText data i, sampleText data i, sampleText data i]) := by
  induction l with
  | nil => rfl
  | cons i l ih =>
    rw [List.flatMap_cons, tokens_ppmSpecPixel, ih, List.flatMap_cons]
    rfl

theorem parseAll_pixels (data : List Byte) (l : List Nat) :
    parseAll (l.flatMap (fun i => [sampleText data i, sampleText data i, sampleText data i]))
      = some (l.flatMap (fun i => [sampleValue data i, sampleValue data i, sampleValue data i])) := by
  induction l with
  | nil => rfl
  | cons i l ih =>
    have hcons : (i :: l).flatMap
          (fun i => [sampleText data i, sampleText data i, sampleText data i])
        = sampleText data i :: sampleText data i :: sampleText data i ::
            l.flatMap (fun i => [sampleText data i, sampleText data i, sampleText data i]) := rfl
    rw [hcons]
    simp only [parseAll, parseNat_sampleText, ih]
    rfl

theorem triples_pixels (data : List Byte) (l : List Nat) :
    triples (l.flatMap (fun i => [sampleValue data i, sampleValue data i, sampleValue data i]))
      = some (l.map (fun i => (sampleValue data i, sampleValue data i, sampleValue data i))) := by
  induction l with
  | nil => rfl
  | cons i l ih =>
    have hcons : (i :: l).flatMap
          (fun i => [sampleValue data i, sampleValue data i, sampleValue data i])
        = sampleValue data i :: sampleValue data i :: sampleValue data i ::
            l.flatMap (fun i => [sampleValue data i, sampleValue data i, sampleValue data i]) :=
      rfl
    rw [hcons]
    simp only [triples, ih, List.map_cons]

theorem map_range_sampleValue (data : List Byte) :
    (List.range data.length).map
        (fun i => (sampleValue data i, sampleValue data i, sampleValue data i))
      = data.map (fun v => (v.val, v.val, v.val)) := by
  apply List.ext_getElem
  · simp
  · intro n h1 h2
    have hn : n < data.length := by simpa using h2
    simp [sampleValue, List.getD_eq_getElem?_getD, List.getElem?_eq_getElem hn]

theorem tokens_ppmSpecText (width height : Int) (data : List Byte) (hw : 0 ≤ width)
    (hh : 0 ≤ height) :
    tokens (ppmSpecText width height data)
      = [Char.ofNat 80, Char.ofNat 51] :: showInt width :: showInt height :: showInt 255
        :: tokens ((List.range (width * height).toNat).flatMap (ppmSpecPixel width data)) := by
  have hshape : ppmSpecText width height data =
      [Char.ofNat 80, Char.ofNat 51] ++ nl :: (showInt width ++ sp :: (showInt height ++ nl ::
        (showInt 255 ++ nl ::
          (List.range (width * height).toNat).flatMap (ppmSpecPixel width data)))) := by
    rw [ppmSpecText, ← ppmHeader_eq, ppmHeader]
    simp only [List.append_assoc, List.cons_append, List.nil_append]
  rw [hshape,
    tokens_token _ (by decide) (by decide) nl nl_blank,
    tokens_token _ (showInt_no_blank width hw) (showInt_ne_nil width hw) sp sp_blank,
    tokens_token _ (showInt_no_blank height hh) (showInt_ne_nil height hh) nl nl_blank,
    tokens_token _ (showInt_no_blank 255 (by decide)) (showInt_ne_nil 255 (by decide)) nl
      nl_blank]

theorem parseP3_ppmSpecText (width height : Int) (data : List Byte) (hw : 0 ≤ width)
    (hh : 0 ≤ height) (hlen : (data.length : Int) = width * height) :
    parseP3 (ppmSpecText width height data)
      = some { width := width.toNat, height := height.toNat, maxval := 255,
               pixels := data.map (fun v => (v.val, v.val, v.val)) } := by
  have hn : (width * height).toNat = data.length := by omega
  unfold parseP3
  rw [tokens_ppmSpecText width height data hw hh, tokens_pixels, hn]
  simp only [if_true, parseAll, parseNat_showInt width hw, parseNat_showInt height hh,
    parseNat_showInt 255 (by decide), parseAll_pixels, triples_pixels, map_range_sampleValue]
  rfl

/-! ## renderImage: the loops -/

theorem castRay_eq (I : RTCScene → RTCRayHit → RTCRayHit) (scene : RTCScene)
    (ox oy oz dx dy dz : F32) (w : World) :
    castRay I scene ox oy oz dx dy dz w =
      { w with rays := w.rays ++ [initRayHit ox oy oz dx dy dz],
               g_lastIntersection := reportsHit I scene (initRayHit ox oy oz dx dy dz) } := by
  unfold castRay reportsHit
  by_cases h : (I scene (initRayHit ox oy oz dx dy dz)).geomID = RTC_INVALID_GEOMETRY_ID
  · simp [h]
  · simp [h]

theorem renderPixel_eq (I : RTCScene → RTCRayHit → RTCRayHit) (scene : RTCScene)
    (width height y x : Nat) (w : World) (h : y * width + x < w.pixels.length) :
    renderPixel I scene width height y x w =
      .ok { pixels := w.pixels.set (y * width + x) (pixelValue I scene width height x y),
            g_lastIntersection := reportsHit I scene (pixelRay width height x y),
            fs := w.fs,
            rays := w.rays ++ [pixelRay width height x y],
            stores := w.stores ++ [y * width + x] } := by
  unfold renderPixel
  simp only [castRay_eq, h, if_true]
  rfl

theorem renderCols_run (I : RTCScene → RTCRayHit → RTCRayHit) (scene : RTCScene)
    (width height y : Nat) :
    ∀ (count x : Nat) (w : World), y * width + x + count ≤ w.pixels.length →
      ∃ w2, renderCols I scene width height y count x w = .ok w2
        ∧ w2.pixels.length = w.pixels.length
        ∧ (∀ i, w2.pixels[i]? =
            if y * width + x ≤ i ∧ i < y * width + x + count
            then some (pixelValue I scene width height (i - y * width) y) else w.pixels[i]?)
        ∧ w2.rays = w.rays ++ (List.range' x count).map (fun k => pixelRay width height k y)
        ∧ w2.stores = w.stores ++ List.range' (y * width + x) count
        ∧ w2.fs = w.fs := by
  intro count
  induction count with
  | zero =>
    intro x w _
    refine ⟨w, rfl, rfl, ?_, by simp, by simp, rfl⟩
    intro i
    have : ¬ (y * width + x ≤ i ∧ i < y * width + x + 0) := by omega
    rw [if_neg this]
  | succ c ih =>
    intro x w hlen
    have hidx : y * width + x < w.pixels.length := by omega
    simp only [renderCols, renderPixel_eq I scene width height y x w hidx]
    obtain ⟨w2, hrun, hl, hpix, hrays, hstores, hfs⟩ := ih (x + 1)
      { pixels := w.pixels.set (y * width + x) (pixelValue I scene width height x y),
        g_lastIntersection := reportsHit I scene (pixelRay width height x y),
        fs := w.fs,
        rays := w.rays ++ [pixelRay width height x y],
        stores := w.stores ++ [y * width + x] } (by simp only [List.length_set]; omega)
    refine ⟨w2, hrun, by simpa using hl, ?_, ?_, ?_, hfs⟩
    · intro i
      rw [hpix i]
      simp only [List.getElem?_set]
      by_cases h1 : y * width + x = i
      · subst h1
        have ha : ¬ (y * width + (x + 1) ≤ y * width + x ∧
            y * width + x < y * width + (x + 1) + c) := by omega
        have hb : y * width + x ≤ y * width + x ∧
            y * width + x < y * width + x + (c + 1) := by omega
        have hc : y * width + x - y * width = x := by omega
        simp [ha, hb, hc, hidx]
      · by_cases h2 : y * width + (x + 1) ≤ i ∧ i < y * width + (x + 1) + c
        · have hb : y * width + x ≤ i ∧ i < y * width + x + (c + 1) := by omega
          simp [h2, hb]
        · have hb : ¬ (y * width + x ≤ i ∧ i < y * width + x + (c + 1)) := by omega
          simp [h1, h2, hb]
    · rw [hrays]; simp [List.range'_succ]
    · rw [hstores]; simp [List.range'_succ, Nat.add_assoc]

theorem div_mod_of_row (width y i : Nat) (h1 : y * width ≤ i) (h2 : i < y * width + width) :
    i / width = y ∧ i % width = i - y * width := by
  obtain ⟨r, rfl⟩ := Nat.exists_eq_add_of_le h1
  have hr : r < width := by omega
  have hw : 0 < width := by omega
  constructor
  · rw [Nat.mul_comm, Nat.mul_add_div hw, Nat.div_eq_of_lt hr]; rfl
  · rw [Nat.mul_comm, Nat.mul_add_mod, Nat.mod_eq_of_lt hr]; omega

theorem renderRows_run (I : RTCScene → RTCRayHit → RTCRayHit) (scene : RTCScene)
    (width height : Nat) :
    ∀ (count y : Nat) (w : World), (y + count) * width ≤ w.pixels.length →
      ∃ w2, renderRows I scene width height count y w = .ok w2
        ∧ w2.pixels.length = w.pixels.length
        ∧ (∀ i, w2.pixels[i]? =
            if y * width ≤ i ∧ i < (y + count) * width
            then some (pixelValue I scene width height (i % width) (i / width))
            else w.pixels[i]?)
        ∧ w2.rays = w.rays ++ (List.range' (y * width) (count * width)).map
            (fun i => pixelRay width height (i % width) (i / width))
        ∧ w2.stores = w.stores ++ List.range' (y * width) (count * width)
        ∧ w2.fs = w.fs := by
  intro count
  induction count with
  | zero =>
    intro y w _
    refine ⟨w, rfl, rfl, ?_, by simp, by simp, rfl⟩
    intro i
    have : ¬ (y * width ≤ i ∧ i < (y + 0) * width) := by
      rw [Nat.add_zero]; omega
    rw [if_neg this]
  | succ c ih =>
    intro y w hlen
    have hexp : (y + (c + 1)) * width = y * width + width + c * width := by ring
    have hexp2 : (y + 1 + c) * width = y * width + width + c * width := by ring
    have hexp3 : (y + 1) * width = y * width + width := by ring
    obtain ⟨w1, hrun1, hl1, hpix1, hrays1, hstores1, hfs1⟩ :=
      renderCols_run I scene width height y width 0 w (by omega)
    obtain ⟨w2, hrun2, hl2, hpix2, hrays2, hstores2, hfs2⟩ :=
      ih (y + 1) w1 (by rw [hl1]; omega)
    refine ⟨w2, ?_, by rw [hl2, hl1], ?_, ?_, ?_, by rw [hfs2, hfs1]⟩
    · simp only [renderRows, hrun1, hrun2]
    · intro i
      rw [hpix2 i, hpix1 i]
      by_cases h2 : (y + 1) * width ≤ i ∧ i < (y + 1 + c) * width
      · have hb : y * width ≤ i ∧ i < (y + (c + 1)) * width := by omega
        simp [h2, hb]
      · by_cases h1 : y * width + 0 ≤ i ∧ i < y * width + 0 + width
        · have hb : y * width ≤ i ∧ i < (y + (c + 1)) * width := by omega
          obtain ⟨hd, hm⟩ := div_mod_of_row width y i (by omega) (by omega)
          simp only [h2, h1, hb, if_true, if_false, and_self, hd, hm]
        · have hb : ¬ (y * width ≤ i ∧ i < (y + (c + 1)) * width) := by omega
          simp only [h2, h1, hb, if_false]
    · rw [hrays2, hrays1, List.append_assoc]
      congr 1
      have hsplit : List.range' (y * width) ((c + 1) * width) =
          List.range' (y * width) width ++ List.range' ((y + 1) * width) (c * width) := by
        have := List.range'_append (y * width) width (c * width) 1
        simp only [Nat.one_mul] at this
        rw [hexp3, this]
        congr 1
        ring
      rw [hsplit, List.map_append]
      congr 1
      rw [List.range'_eq_map_range, List.range'_eq_map_range, List.map_map, List.map_map]
      apply List.map_congr_left
      intro k hk
      rw [List.mem_range] at hk
      obtain ⟨hd, hm⟩ := div_mod_of_row width y (y * width + k) (by omega) (by omega)
      simp only [Function.comp, hd, hm, Nat.zero_add]
      congr 1
      omega
    · rw [hstores2, hstores1, List.append_assoc]
      congr 1
      have := List.range'_append (y * width) width (c * width) 1
      simp only [Nat.one_mul] at this
      rw [hexp3, Nat.add_zero, this]
      congr 1
      ring

theorem renderLoop_run (I : RTCScene → RTCRayHit → RTCRayHit) (scene : RTCScene)
    (w : World) (hlen : w.pixels.length = 65536) :
    ∃ w2, renderLoop I scene w = .ok w2
      ∧ w2.pixels = rasterOf I scene
      ∧ w2.rays = w.rays ++ (List.range 65536).map
          (fun i => pixelRay 256 256 (i % 256) (i / 256))
      ∧ w2.stores = w.stores ++ List.range 65536
      ∧ w2.fs = w.fs := by
  obtain ⟨w2, hrun, hl, hpix, hrays, hstores, hfs⟩ :=
    renderRows_run I scene 256 256 256 0 w (by omega)
  refine ⟨w2, hrun, ?_, ?_, ?_, hfs⟩
  · apply List.ext_getElem?
    intro i
    rw [hpix i]
    unfold rasterOf
    by_cases hi : i < 65536
    · have : 0 * 256 ≤ i ∧ i < (0 + 256) * 256 := by omega
      simp [this, hi, List.getElem?_range]
    · have : ¬ (0 * 256 ≤ i ∧ i < (0 + 256) * 256) := by omega
      simp only [this, if_false]
      rw [List.getElem?_eq_none (by omega), List.getElem?_eq_none (by simp; omega)]
  · rw [hrays, List.range_eq_range']
  · rw [hstores, List.range_eq_range']

theorem rasterOf_length (I : RTCScene → RTCRayHit → RTCRayHit) (scene : RTCScene) :
    (rasterOf I scene).length = 65536 := by
  simp [rasterOf]

theorem rasterOf_getElem? (I : RTCScene → RTCRayHit → RTCRayHit) (scene : RTCScene)
    (x y : Nat) (hx : x < 256) (hy : y < 256) :
    (rasterOf I scene)[y * 256 + x]? = some (pixelValue I scene 256 256 x y) := by
  have hi : y * 256 + x < 65536 := by omega
  have h1 : (y * 256 + x) % 256 = x := by omega
  have h2 : (y * 256 + x) / 256 = y := by omega
  simp [rasterOf, List.getElem?_range, hi, h1, h2]

theorem savePPM_raster (fs : FileStore) (raster : List Byte) (hlen : raster.length = 65536) :
    savePPM fs "out.ppm" 256 256 raster = .ok (storeAfterSave fs raster) := by
  unfold storeAfterSave
  by_cases hopen : fs.writable "out.ppm" = true
  · rw [if_pos hopen]
    exact savePPM_spec fs "out.ppm" 256 256 raster (by decide) (by decide) (by decide)
      (by rw [hlen]; rfl) hopen
  · rw [if_neg hopen]
    simp [savePPM, hopen]

theorem renderImage_run (I : RTCScene → RTCRayHit → RTCRayHit) (scene : RTCScene)
    (w : World) (hlen : w.pixels.length = 65536) :
    ∃ w2, renderImage I scene w = .ok w2
      ∧ w2.pixels = rasterOf I scene
      ∧ w2.rays = w.rays ++ (List.range 65536).map
          (fun i => pixelRay 256 256 (i % 256) (i / 256))
      ∧ w2.stores = w.stores ++ List.range 65536
      ∧ w2.fs = storeAfterSave w.fs (rasterOf I scene) := by
  obtain ⟨w1, hrun, hpix, hrays, hstores, hfs⟩ := renderLoop_run I scene w hlen
  refine ⟨{ w1 with fs := storeAfterSave w.fs (rasterOf I scene) }, ?_, hpix, hrays, hstores, rfl⟩
  unfold renderImage
  rw [hrun]
  simp only [hpix, hfs, savePPM_raster _ _ (rasterOf_length I scene)]

theorem storeAfterSave_out (fs : FileStore) (a b : List Byte) :
    (storeAfterSave (storeAfterSave fs a) b).files "out.ppm"
      = (storeAfterSave fs b).files "out.ppm" := by
  unfold storeAfterSave
  by_cases hopen : fs.writable "out.ppm" = true
  · simp [hopen, FileStore.put]
  · simp [hopen]

theorem count_range_self (n i : Nat) (h : i < n) : (List.range n).count i = 1 :=
  List.count_eq_one_of_mem (List.nodup_range n) (List.mem_range.mpr h)

theorem pixelRay_geomID (width height x y : Nat) :
    (pixelRay width height x y).geomID = RTC_INVALID_GEOMETRY_ID := rfl

theorem rasterOf_all_miss (I : RTCScene → RTCRayHit → RTCRayHit) (scene : RTCScene)
    (hmiss : ∀ ray, ray.geomID = RTC_INVALID_GEOMETRY_ID →
      (I scene ray).geomID = RTC_INVALID_GEOMETRY_ID) :
    rasterOf I scene = List.replicate (256 * 256) 0 := by
  apply List.ext_getElem
  · rw [rasterOf_length, List.length_replicate]
  · intro i h1 h2
    rw [List.getElem_replicate]
    simp only [rasterOf, List.getElem_map, pixelValue, reportsHit,
      hmiss _ (pixelRay_geomID _ _ _ _), ne_eq, not_true_eq_false, decide_False,
      Bool.false_eq_true, if_false]

theorem exactIntersect_null_buffers (ray : RTCRayHit) :
    exactIntersect (initializeScene none none).scene ray = ray := by
  unfold exactIntersect
  cases h : rayLine ray with
  | none => simp
  | some od =>
    simp [initializeScene, sceneHits, geometryHits, trianglesOf, nearestHit]

/-! ## The binary32 pixel coordinates -/

set_option maxRecDepth 100000 in
theorem coord_table : ∀ x < 256,
    pixelCoord 256 x = F32.fin (coordValue x)
      ∧ |coordValue x - (x : ℚ) / 255| ≤ 1 / 2 ^ 25
      ∧ 0 ≤ coordValue x ∧ coordValue x ≤ 1
      ∧ (coordValue x = 0 ↔ x = 0) ∧ (coordValue x = 1 ↔ x = 255) := by
  decide!

set_option maxRecDepth 100000 in
theorem coord_diagonal_table : ∀ x < 256,
    (coordValue x + coordValue (255 - x) ≤ 1 ↔ (x = 0 ∨ x = 255)) := by
  decide!

theorem pixelRay_eq (x y : Nat) (hx : x < 256) (hy : y < 256) :
    pixelRay 256 256 x y =
      { org_x := F32.fin (coordValue x), org_y := F32.fin (coordValue y),
        org_z := F32.fin (-1), dir_x := F32.fin 0, dir_y := F32.fin 0, dir_z := F32.fin 1,
        tnear := F32.fin 0, tfar := F32.pinf, mask := 4294967295, flags := 0,
        geomID := RTC_INVALID_GEOMETRY_ID, instID0 := RTC_INVALID_GEOMETRY_ID } := by
  have h1 := (coord_table x hx).1
  have h2 := (coord_table y hy).1
  unfold pixelCoord at h1 h2
  unfold pixelRay initRayHit
  rw [h1, h2]

/-! ## initializeScene -/

theorem set_vertices (v : List F32) (hv : v.length = 9) :
    ((((((((v.set 0 (F32.fin 0)).set 1 (F32.fin 0)).set 2 (F32.fin 0)).set 3 (F32.fin 1)).set 4
      (F32.fin 0)).set 5 (F32.fin 0)).set 6 (F32.fin 0)).set 7 (F32.fin 1)).set 8 (F32.fin 0)
      = [F32.fin 0, F32.fin 0, F32.fin 0, F32.fin 1, F32.fin 0, F32.fin 0,
         F32.fin 0, F32.fin 1, F32.fin 0] := by
  match v, hv with
  | [_, _, _, _, _, _, _, _, _], _ => rfl

theorem set_indices (i : List Nat) (hi : i.length = 3) :
    ((i.set 0 0).set 1 1).set 2 2 = [0, 1, 2] := by
  match i, hi with
  | [_, _, _], _ => rfl

theorem initializeScene_filled (v : List F32) (i : List Nat) (hv : v.length = 9)
    (hi : i.length = 3) :
    (initializeScene (some v) (some i)).scene = referenceScene := by
  simp only [initializeScene, set_vertices v hv, set_indices i hi, referenceScene,
    List.nil_append]

/-! ## The reference triangle under the exact intersector -/

theorem trianglesOf_reference :
    trianglesOf { vertices := some [F32.fin 0, F32.fin 0, F32.fin 0, F32.fin 1, F32.fin 0,
                    F32.fin 0, F32.fin 0, F32.fin 1, F32.fin 0],
                  indices := some [0, 1, 2], committed := true }
      = [((0, 0, 0), (1, 0, 0), (0, 1, 0))] := by
  decide!

theorem triangleHit_reference (a b : ℚ) :
    triangleHit (a, b, -1) (0, 0, 1) (0, 0, 0) (1, 0, 0) (0, 1, 0)
      = if 0 ≤ a ∧ 0 ≤ b ∧ a + b ≤ 1 then some 1 else none := by
  simp [triangleHit, vsub, vdot, vcross]

theorem reportsHit_reference (a b : ℚ) :
    reportsHit exactIntersect referenceScene
        { org_x := F32.fin a, org_y := F32.fin b, org_z := F32.fin (-1),
          dir_x := F32.fin 0, dir_y := F32.fin 0, dir_z := F32.fin 1,
          tnear := F32.fin 0, tfar := F32.pinf, mask := 4294967295, flags := 0,
          geomID := RTC_INVALID_GEOMETRY_ID, instID0 := RTC_INVALID_GEOMETRY_ID }
      = decide (0 ≤ a ∧ 0 ≤ b ∧ a + b ≤ 1) := by
  unfold reportsHit exactIntersect referenceScene
  simp only [if_true, rayLine, sceneHits, geometryHits, trianglesOf_reference,
    List.filterMap_cons, List.filterMap_nil, triangleHit_reference, List.append_nil]
  by_cases h : 0 ≤ a ∧ 0 ≤ b ∧ a + b ≤ 1
  · simp [h, inInterval, nearestHit, RTC_INVALID_GEOMETRY_ID]
  · simp [h, nearestHit]

theorem coord_sum_le_one_iff (x y : Nat) (hx : x < 256) (hy : y < 256) :
    (0 ≤ coordValue x ∧ 0 ≤ coordValue y ∧ coordValue x + coordValue y ≤ 1)
      ↔ (x + y ≤ 254 ∨ (x = 0 ∧ y = 255) ∨ (x = 255 ∧ y = 0)) := by
  obtain ⟨_, hex, hx0, _, _, _⟩ := coord_table x hx
  obtain ⟨_, hey, hy0, _, _, _⟩ := coord_table y hy
  have hex2 := abs_le.mp hex
  have hey2 := abs_le.mp hey
  rcases Nat.lt_trichotomy (x + y) 255 with hlt | heq | hgt
  · have hs : ((x : ℚ) + (y : ℚ)) ≤ 254 := by
      have : x + y ≤ 254 := by omega
      exact_mod_cast this
    have hle : coordValue x + coordValue y ≤ 1 := by
      have h1 : ((x : ℚ) + (y : ℚ)) / 255 ≤ 254 / 255 := by
        apply div_le_div_of_nonneg_right hs (by norm_num)
      have h2 : (x : ℚ) / 255 + (y : ℚ) / 255 = ((x : ℚ) + (y : ℚ)) / 255 := by ring
      have h3 : (1 : ℚ) / 2 ^ 25 + 1 / 2 ^ 25 + 254 / 255 ≤ 1 := by norm_num
      linarith [hex2.2, hey2.2]
    constructor
    · intro _; left; omega
    · intro _; exact ⟨hx0, hy0, hle⟩
  · have hy2 : y = 255 - x := by omega
    have hd := coord_diagonal_table x hx
    rw [← hy2] at hd
    constructor
    · rintro ⟨_, _, h⟩
      rcases hd.mp h with h0 | h255
      · right; left; omega
      · right; right; omega
    · intro h
      refine ⟨hx0, hy0, hd.mpr ?_⟩
      omega
  · have hs : (256 : ℚ) ≤ (x : ℚ) + (y : ℚ) := by
      have : 256 ≤ x + y := by omega
      exact_mod_cast this
    have hgt2 : 1 < coordValue x + coordValue y := by
      have h1 : (256 : ℚ) / 255 ≤ ((x : ℚ) + (y : ℚ)) / 255 := by
        apply div_le_div_of_nonneg_right hs (by norm_num)
      have h2 : (x : ℚ) / 255 + (y : ℚ) / 255 = ((x : ℚ) + (y : ℚ)) / 255 := by ring
      have h3 : (1 : ℚ) < 256 / 255 - 1 / 2 ^ 25 - 1 / 2 ^ 25 := by norm_num
      linarith [hex2.1, hey2.1]
    constructor
    · rintro ⟨_, _, h⟩
      exact absurd h (not_le.mpr hgt2)
    · intro h
      omega

theorem pixelValue_reference (x y : Nat) (hx : x < 256) (hy : y < 256) :
    pixelValue exactIntersect referenceScene 256 256 x y
      = if x + y ≤ 254 ∨ (x = 0 ∧ y = 255) ∨ (x = 255 ∧ y = 0) then 255 else 0 := by
  unfold pixelValue
  rw [pixelRay_eq x y hx hy, reportsHit_reference]
  by_cases h : x + y ≤ 254 ∨ (x = 0 ∧ y = 255) ∨ (x = 255 ∧ y = 0)
  · rw [if_pos h, if_pos]
    exact decide_eq_true ((coord_sum_le_one_iff x y hx hy).mpr h)
  · rw [if_neg h, if_neg]
    intro hd
    exact h ((coord_sum_le_one_iff x y hx hy).mp (of_decide_eq_true hd))

theorem render_reference_raster (v : List F32) (i : List Nat) (hv : v.length = 9)
    (hi : i.length = 3) (w : World) (hlen : w.pixels.length = 65536) :
    ∃ w2, renderImage exactIntersect (initializeScene (some v) (some i)).scene w = .ok w2
      ∧ ∀ x y : Nat, x < 256 → y < 256 → w2.pixels[y * 256 + x]? =
          some (if x + y ≤ 254 ∨ (x = 0 ∧ y = 255) ∨ (x = 255 ∧ y = 0) then 255 else 0) := by
  rw [initializeScene_filled v i hv hi]
  obtain ⟨w2, hrun, hpix, _⟩ := renderImage_run exactIntersect referenceScene w hlen
  refine ⟨w2, hrun, ?_⟩
  intro x y hx hy
  rw [hpix, rasterOf_getElem? _ _ x y hx hy, pixelValue_reference x y hx hy]

/-! ## Claims about savePPM -/

/-- C1 (amended): for width >= 1, height >= 0 whose product fits a 32-bit `int`
and a buffer of width*height bytes, when the file opens `savePPM` leaves in it
exactly the header `P3\n<width> <height>\n255\n` followed, for each i in order, by
the value of `data[i]` three times, each followed by a space, with one newline
after pixel i exactly when i+1 is a multiple of width; the text has 3 + height
newlines. -/
theorem savePPM_writes_ppm (fs : FileStore) (filename : String) (width height : Int)
    (data : List Byte) (hw : 1 ≤ width) (hh : 0 ≤ height)
    (hfit : width * height ≤ 2147483647) (hlen : (data.length : Int) = width * height)
    (hopen : fs.writable filename = true) :
    savePPM fs filename width height data
        = .ok (fs.put filename (ppmSpecText width height data))
      ∧ (((ppmSpecText width height data).count nl : Nat) : Int) = 3 + height :=
  ⟨savePPM_spec fs filename width height data hw hh hfit hlen hopen,
    count_nl_ppmSpecText width height data hw hh⟩

/-- Witness of C1: a 2 x 2 raster. -/
theorem savePPM_writes_ppm_witness :
    savePPM ⟨fun _ => none, fun _ => true⟩ "out.ppm" 2 2 [0, 255, 7, 9]
        = .ok (FileStore.put ⟨fun _ => none, fun _ => true⟩ "out.ppm"
            (ppmSpecText 2 2 [0, 255, 7, 9]))
      ∧ (((ppmSpecText 2 2 [0, 255, 7, 9]).count nl : Nat) : Int) = 3 + 2 :=
  savePPM_writes_ppm ⟨fun _ => none, fun _ => true⟩ "out.ppm" 2 2 [0, 255, 7, 9]
    (by decide) (by decide) (by decide) (by decide) rfl

/-- C1 (counterexample): width = height = 65536 and a buffer of 65536 * 65536 bytes
satisfy the claim's premises, yet `width * height` wraps to 0 in a 32-bit `int`:
the loop does not run, the file holds the header alone (3 newlines, not
3 + 65536), which is not the text the claim describes. -/
theorem savePPM_overflow_counterexample :
    (1 : Int) ≤ 65536 ∧ (0 : Int) ≤ 65536
      ∧ ((List.replicate 4294967296 (0 : Byte)).length : Int) = 65536 * 65536
      ∧ savePPM ⟨fun _ => none, fun _ => true⟩ "out.ppm" 65536 65536
            (List.replicate 4294967296 (0 : Byte))
          = .ok (FileStore.put ⟨fun _ => none, fun _ => true⟩ "out.ppm" (ppmHeader 65536 65536))
      ∧ ppmHeader 65536 65536 ≠ ppmSpecText 65536 65536 (List.replicate 4294967296 (0 : Byte))
      ∧ (ppmHeader 65536 65536).count nl = 3 :=
  ⟨by decide, by decide, by rw [List.length_replicate]; rfl,
    savePPM_wrapped_to_zero _ _ _ rfl, ppmHeader_ne_specText _, count_nl_ppmHeader _ _⟩

/-- C7: when the destination cannot be opened, `savePPM` returns normally with the
file store unchanged; nothing is written, and a path that held no file holds none
afterwards. -/
theorem savePPM_unwritable (fs : FileStore) (filename : String) (width height : Int)
    (data : List Byte) (hclosed : fs.writable filename = false) :
    savePPM fs filename width height data = .ok fs
      ∧ (fs.files filename = none →
          ∃ fs2, savePPM fs filename width height data = .ok fs2 ∧ fs2.files filename = none) := by
  have h : savePPM fs filename width height data = .ok fs := by
    simp [savePPM, hclosed]
  exact ⟨h, fun hnone => ⟨fs, h, hnone⟩⟩

/-- Witness of C7: an empty store where nothing can be opened. -/
theorem savePPM_unwritable_witness :
    savePPM ⟨fun _ => none, fun _ => false⟩ "out.ppm" 2 2 [0, 255, 7, 9]
        = .ok ⟨fun _ => none, fun _ => false⟩
      ∧ ((fun _ => none : String → Option (List Char)) "out.ppm" = none →
          ∃ fs2, savePPM ⟨fun _ => none, fun _ => false⟩ "out.ppm" 2 2 [0, 255, 7, 9] = .ok fs2
            ∧ fs2.files "out.ppm" = none) :=
  savePPM_unwritable ⟨fun _ => none, fun _ => false⟩ "out.ppm" 2 2 [0, 255, 7, 9] rfl

/-- C10: when `width * height` fits a 32-bit `int` and the buffer has at least
that many bytes, the pixel loop of `savePPM` finishes without a fault (no
remainder by a zero width, no read outside the buffer); every index it reads lies
in `0 <= i < width*height`; with width = 0 or height = 0 the body does not run and
the header alone is written. -/
theorem savePPM_loop_safe (width height : Int) (data : List Byte)
    (hlo : -2147483648 ≤ width * height) (hhi : width * height ≤ 2147483647)
    (hlen : width * height ≤ (data.length : Int)) :
    ∃ s, savePPMStream width height data = .ok s
      ∧ (∀ i ∈ s.reads, 0 ≤ i ∧ i < width * height ∧ i < (data.length : Int))
      ∧ (width = 0 ∨ height = 0 → s = { out := ppmHeader width height, reads := [] }) := by
  refine ⟨_, savePPMStream_run width height data hlo hhi hlen, ?_, ?_⟩
  · intro i hi
    obtain ⟨k, hk, rfl⟩ := List.mem_map.mp hi
    have hk2 : k < (width * height).toNat := List.mem_range.mp hk
    omega
  · intro h0
    have : width * height = 0 := by
      rcases h0 with h | h <;> simp [h]
    simp [this]

/-- Witness of C10: width 0 with an empty buffer. -/
theorem savePPM_loop_safe_witness :
    ∃ s, savePPMStream 0 5 [] = .ok s
      ∧ (∀ i ∈ s.reads, 0 ≤ i ∧ i < (0 : Int) * 5 ∧ i < (([] : List Byte).length : Int))
      ∧ ((0 : Int) = 0 ∨ (5 : Int) = 0 → s = { out := ppmHeader 0 5, reads := [] }) :=
  savePPM_loop_safe 0 5 [] (by decide) (by decide) (by decide)

/-! ## Round trip -/

theorem put_files_self (fs : FileStore) (path : String) (text : List Char) :
    (fs.put path text).files path = some text := by
  simp [FileStore.put]

theorem rasterOf_values (I : RTCScene → RTCRayHit → RTCRayHit) (scene : RTCScene) :
    ∀ v ∈ rasterOf I scene, v = 0 ∨ v = 255 := by
  intro v hv
  simp only [rasterOf, List.mem_map] at hv
  obtain ⟨i, _, rfl⟩ := hv
  unfold pixelValue
  split
  · right; rfl
  · left; rfl

theorem gray_triples (raster : List Byte) (h : ∀ v ∈ raster, v = 0 ∨ v = 255) :
    ∀ p ∈ raster.map (fun v => (v.val, v.val, v.val)), p = (0, 0, 0) ∨ p = (255, 255, 255) := by
  intro p hp
  obtain ⟨v, hv, rfl⟩ := List.mem_map.mp hp
  rcases h v hv with h | h
  · left; rw [h]; rfl
  · right; rw [h]; rfl

/-- C4 (amended): for width >= 1, height >= 0 whose product fits a 32-bit `int`
and a buffer of width*height bytes, reading the text `savePPM` wrote as a plain P3
image recovers width, height, the maximum 255 and width*height triples in
row-major order, the i-th being (data[i], data[i], data[i]); for the raster
`renderImage` produces, the image read back from `out.ppm` is 256 x 256 with every
triple (0,0,0) or (255,255,255). -/
theorem savePPM_roundtrip (fs : FileStore) (filename : String) (width height : Int)
    (data : List Byte) (I : RTCScene → RTCRayHit → RTCRayHit) (scene : RTCScene) (w : World)
    (hw : 1 ≤ width) (hh : 0 ≤ height) (hfit : width * height ≤ 2147483647)
    (hlen : (data.length : Int) = width * height) (hopen : fs.writable filename = true)
    (hraster : w.pixels.length = 65536) (hout : w.fs.writable "out.ppm" = true) :
    (∃ fs2, savePPM fs filename width height data = .ok fs2
        ∧ (fs2.files filename).bind parseP3
            = some { width := width.toNat, height := height.toNat, maxval := 255,
                     pixels := data.map (fun v => (v.val, v.val, v.val)) }
        ∧ ((data.map (fun v => (v.val, v.val, v.val))).length : Int) = width * height)
      ∧ (∃ w2 img, renderImage I scene w = .ok w2
        ∧ (w2.fs.files "out.ppm").bind parseP3 = some img
        ∧ img.width = 256 ∧ img.height = 256 ∧ img.maxval = 255
        ∧ img.pixels.length = 256 * 256
        ∧ ∀ p ∈ img.pixels, p = (0, 0, 0) ∨ p = (255, 255, 255)) := by
  constructor
  · refine ⟨_, savePPM_spec fs filename width height data hw hh hfit hlen hopen, ?_, ?_⟩
    · rw [put_files_self, Option.some_bind,
        parseP3_ppmSpecText width height data (by omega) hh hlen]
    · rw [List.length_map, hlen]
  · obtain ⟨w2, hrun, _, _, _, hfs⟩ := renderImage_run I scene w hraster
    refine ⟨w2, P3Image.mk 256 256 255 ((rasterOf I scene).map (fun v => (v.val, v.val, v.val))),
      hrun, ?_, rfl, rfl, rfl, ?_, ?_⟩
    · rw [hfs, storeAfterSave, if_pos hout, put_files_self, Option.some_bind,
        parseP3_ppmSpecText 256 256 (rasterOf I scene) (by decide) (by decide)
          (by rw [rasterOf_length]; rfl)]
      rfl
    · simp only [List.length_map, rasterOf_length]
    · dsimp only
      exact gray_triples _ (rasterOf_values I scene)

/-- Witness of C4: a 2 x 2 raster, an intersector that always reports geometry 0. -/
theorem savePPM_roundtrip_witness :
    (∃ fs2, savePPM ⟨fun _ => none, fun _ => true⟩ "out.ppm" 2 2 [0, 255, 7, 9] = .ok fs2
        ∧ (fs2.files "out.ppm").bind parseP3
            = some { width := (2 : Int).toNat, height := (2 : Int).toNat, maxval := 255,
                     pixels := ([0, 255, 7, 9] : List Byte).map (fun v => (v.val, v.val, v.val)) }
        ∧ ((([0, 255, 7, 9] : List Byte).map (fun v => (v.val, v.val, v.val))).length : Int)
            = 2 * 2)
      ∧ (∃ w2 img, renderImage (fun _ r => { r with geomID := 0 }) ⟨[], true⟩
            ⟨List.replicate 65536 0, false, ⟨fun _ => none, fun _ => true⟩, [], []⟩ = .ok w2
        ∧ (w2.fs.files "out.ppm").bind parseP3 = some img
        ∧ img.width = 256 ∧ img.height = 256 ∧ img.maxval = 255
        ∧ img.pixels.length = 256 * 256
        ∧ ∀ p ∈ img.pixels, p = (0, 0, 0) ∨ p = (255, 255, 255)) :=
  savePPM_roundtrip ⟨fun _ => none, fun _ => true⟩ "out.ppm" 2 2 [0, 255, 7, 9]
    (fun _ r => { r with geomID := 0 }) ⟨[], true⟩
    ⟨List.replicate 65536 0, false, ⟨fun _ => none, fun _ => true⟩, [], []⟩
    (by decide) (by decide) (by decide) (by decide) rfl (List.length_replicate _ _) rfl

/-- C4 (counterexample): width = height = 65536 with a buffer of 65536 * 65536
bytes meets the claim's premises, but the file `savePPM` writes holds the header
alone; read back it gives width 65536, height 65536, maximum 255 and no triple at
all instead of 65536 * 65536 triples. -/
theorem savePPM_roundtrip_overflow_counterexample :
    (1 : Int) ≤ 65536 ∧ (0 : Int) ≤ 65536
      ∧ ((List.replicate 4294967296 (0 : Byte)).length : Int) = 65536 * 65536
      ∧ (∃ fs2, savePPM ⟨fun _ => none, fun _ => true⟩ "out.ppm" 65536 65536
            (List.replicate 4294967296 (0 : Byte)) = .ok fs2
          ∧ (fs2.files "out.ppm").bind parseP3
              = some { width := 65536, height := 65536, maxval := 255, pixels := [] })
      ∧ (([] : List (Nat × Nat × Nat)).length : Int) ≠ 65536 * 65536 :=
  ⟨by decide, by decide, by rw [List.length_replicate]; rfl,
    ⟨_, savePPM_wrapped_to_zero _ _ _ rfl, by rw [put_files_self]; decide⟩, by decide⟩

/-! ## Claims about renderImage -/

/-- C2: for every intersector and every pixel (x, y) of the 256 x 256 grid,
`renderImage` ends with a raster of exactly 256*256 cells in which the cell at
row-major index y*256 + x was stored exactly once and holds 255 if the
intersector reported a hit for that pixel's ray and 0 otherwise. -/
theorem renderImage_classifies (I : RTCScene → RTCRayHit → RTCRayHit) (scene : RTCScene)
    (w : World) (x y : Nat) (hlen : w.pixels.length = 65536) (hx : x < 256) (hy : y < 256) :
    ∃ w2, renderImage I scene w = .ok w2
      ∧ w2.pixels.length = 256 * 256
      ∧ w2.stores.count (y * 256 + x) = w.stores.count (y * 256 + x) + 1
      ∧ w2.pixels[y * 256 + x]? =
          some (if (I scene (pixelRay 256 256 x y)).geomID ≠ RTC_INVALID_GEOMETRY_ID
                then 255 else 0) := by
  obtain ⟨w2, hrun, hpix, _, hstores, _⟩ := renderImage_run I scene w hlen
  refine ⟨w2, hrun, ?_, ?_, ?_⟩
  · rw [hpix, rasterOf_length]
  · rw [hstores, List.count_append, count_range_self _ _ (by omega)]
  · rw [hpix, rasterOf_getElem? I scene x y hx hy]
    simp [pixelValue, reportsHit]

/-- Witness of C2: an intersector that always reports geometry 0, pixel (3, 5). -/
theorem renderImage_classifies_witness :
    ∃ w2, renderImage (fun _ r => { r with geomID := 0 }) ⟨[], true⟩
        ⟨List.replicate 65536 0, false, ⟨fun _ => none, fun _ => true⟩, [], []⟩ = .ok w2
      ∧ w2.pixels.length = 256 * 256
      ∧ w2.stores.count (5 * 256 + 3) = ([] : List Nat).count (5 * 256 + 3) + 1
      ∧ w2.pixels[5 * 256 + 3]? =
          some (if ((fun (_ : RTCScene) (r : RTCRayHit) => { r with geomID := 0 }) ⟨[], true⟩
                  (pixelRay 256 256 3 5)).geomID ≠ RTC_INVALID_GEOMETRY_ID
                then 255 else 0) :=
  renderImage_classifies (fun _ r => { r with geomID := 0 }) ⟨[], true⟩
    ⟨List.replicate 65536 0, false, ⟨fun _ => none, fun _ => true⟩, [], []⟩ 3 5
    (List.length_replicate _ _) (by decide) (by decide)

/-- C5: two consecutive runs of `renderImage` with the same (deterministic)
intersector and scene produce the same raster and the same bytes of `out.ppm`;
so does a run started with any other value of `g_lastIntersection`. -/
theorem renderImage_idempotent (I : RTCScene → RTCRayHit → RTCRayHit) (scene : RTCScene)
    (w : World) (hlen : w.pixels.length = 65536) :
    ∃ w1 w2, renderImage I scene w = .ok w1
      ∧ renderImage I scene w1 = .ok w2
      ∧ w2.pixels = w1.pixels
      ∧ w2.fs.files "out.ppm" = w1.fs.files "out.ppm"
      ∧ ∀ flag : Bool, ∃ w3,
          renderImage I scene { w with g_lastIntersection := flag } = .ok w3
          ∧ w3.pixels = w1.pixels
          ∧ w3.fs.files "out.ppm" = w1.fs.files "out.ppm" := by
  obtain ⟨w1, hrun1, hpix1, _, _, hfs1⟩ := renderImage_run I scene w hlen
  obtain ⟨w2, hrun2, hpix2, _, _, hfs2⟩ :=
    renderImage_run I scene w1 (by rw [hpix1, rasterOf_length])
  refine ⟨w1, w2, hrun1, hrun2, by rw [hpix1, hpix2], ?_, ?_⟩
  · rw [hfs2, hfs1, storeAfterSave_out]
  · intro flag
    obtain ⟨w3, hrun3, hpix3, _, _, hfs3⟩ :=
      renderImage_run I scene { w with g_lastIntersection := flag } hlen
    exact ⟨w3, hrun3, by rw [hpix1, hpix3], by rw [hfs3, hfs1]⟩

/-- Witness of C5: an intersector that always reports geometry 0, a zeroed raster. -/
theorem renderImage_idempotent_witness :
    ∃ w1 w2, renderImage (fun _ r => { r with geomID := 0 }) ⟨[], true⟩
        ⟨List.replicate 65536 0, false, ⟨fun _ => none, fun _ => true⟩, [], []⟩ = .ok w1
      ∧ renderImage (fun _ r => { r with geomID := 0 }) ⟨[], true⟩ w1 = .ok w2
      ∧ w2.pixels = w1.pixels
      ∧ w2.fs.files "out.ppm" = w1.fs.files "out.ppm"
      ∧ ∀ flag : Bool, ∃ w3,
          renderImage (fun _ r => { r with geomID := 0 }) ⟨[], true⟩
            { (⟨List.replicate 65536 0, false, ⟨fun _ => none, fun _ => true⟩, [], []⟩ : World)
                with g_lastIntersection := flag } = .ok w3
          ∧ w3.pixels = w1.pixels
          ∧ w3.fs.files "out.ppm" = w1.fs.files "out.ppm" :=
  renderImage_idempotent (fun _ r => { r with geomID := 0 }) ⟨[], true⟩
    ⟨List.replicate 65536 0, false, ⟨fun _ => none, fun _ => true⟩, [], []⟩
    (List.length_replicate _ _)

/-- C6: if the intersector reports no hit for any ray it is handed (it leaves the
invalid geometry id `castRay` put there), as for a scene with zero triangles, every
one of the 256*256 raster cells is 0 after `renderImage`, also when
`g_lastIntersection` was true before the render started. -/
theorem renderImage_all_miss (I : RTCScene → RTCRayHit → RTCRayHit) (scene : RTCScene)
    (w : World) (hlen : w.pixels.length = 65536)
    (hmiss : ∀ ray, ray.geomID = RTC_INVALID_GEOMETRY_ID →
      (I scene ray).geomID = RTC_INVALID_GEOMETRY_ID) :
    ∃ w2, renderImage I scene { w with g_lastIntersection := true } = .ok w2
      ∧ w2.pixels = List.replicate (256 * 256) 0
      ∧ ∃ w3, renderImage I scene w = .ok w3 ∧ w3.pixels = List.replicate (256 * 256) 0 := by
  have hraster := rasterOf_all_miss I scene hmiss
  obtain ⟨w2, hrun2, hpix2, _⟩ :=
    renderImage_run I scene { w with g_lastIntersection := true } hlen
  obtain ⟨w3, hrun3, hpix3, _⟩ := renderImage_run I scene w hlen
  exact ⟨w2, hrun2, by rw [hpix2, hraster], w3, hrun3, by rw [hpix3, hraster]⟩

/-- Witness of C6: the exact intersector on the scene built from two null buffers
(no triangles), a raster that held 7 everywhere. -/
theorem renderImage_all_miss_witness :
    ∃ w2, renderImage exactIntersect (initializeScene none none).scene
        { (⟨List.replicate 65536 7, false, ⟨fun _ => none, fun _ => true⟩, [], []⟩ : World)
            with g_lastIntersection := true } = .ok w2
      ∧ w2.pixels = List.replicate (256 * 256) 0
      ∧ ∃ w3, renderImage exactIntersect (initializeScene none none).scene
          ⟨List.replicate 65536 7, false, ⟨fun _ => none, fun _ => true⟩, [], []⟩ = .ok w3
        ∧ w3.pixels = List.replicate (256 * 256) 0 :=
  renderImage_all_miss exactIntersect (initializeScene none none).scene
    ⟨List.replicate 65536 7, false, ⟨fun _ => none, fun _ => true⟩, [], []⟩
    (List.length_replicate _ _)
    (fun ray h => by rw [exactIntersect_null_buffers]; exact h)

/-- C3: for every pixel (x, y) of the 256 x 256 grid the ray `renderImage` hands to
the intersector (entry y*256 + x of the query trace) has origin (fx, fy, -1) with
fx, fy the binary32 quotients x / (width-1), y / (height-1) (within 2^-25 of the
exact quotients), direction (0, 0, 1), tnear = 0 and tfar = +infinity; fx and fy lie
in [0, 1], are 0 exactly at coordinate 0 and 1 exactly at coordinate 255, and the
divisor width-1 = height-1 = 255 is not zero. -/
theorem renderImage_ray (I : RTCScene → RTCRayHit → RTCRayHit) (scene : RTCScene)
    (w : World) (x y : Nat) (hlen : w.pixels.length = 65536) (hx : x < 256) (hy : y < 256) :
    ∃ w2 fx fy, renderImage I scene w = .ok w2
      ∧ w2.rays[w.rays.length + (y * 256 + x)]? = some
          { org_x := F32.fin fx, org_y := F32.fin fy, org_z := F32.fin (-1),
            dir_x := F32.fin 0, dir_y := F32.fin 0, dir_z := F32.fin 1,
            tnear := F32.fin 0, tfar := F32.pinf, mask := 4294967295, flags := 0,
            geomID := RTC_INVALID_GEOMETRY_ID, instID0 := RTC_INVALID_GEOMETRY_ID }
      ∧ F32.fin fx = F32.div (F32.ofInt (x : Int)) (F32.ofInt ((256 : Int) - 1))
      ∧ F32.fin fy = F32.div (F32.ofInt (y : Int)) (F32.ofInt ((256 : Int) - 1))
      ∧ |fx - (x : ℚ) / (256 - 1)| ≤ 1 / 2 ^ 25 ∧ |fy - (y : ℚ) / (256 - 1)| ≤ 1 / 2 ^ 25
      ∧ 0 ≤ fx ∧ fx ≤ 1 ∧ 0 ≤ fy ∧ fy ≤ 1
      ∧ (fx = 0 ↔ x = 0) ∧ (fx = 1 ↔ x = 256 - 1)
      ∧ (fy = 0 ↔ y = 0) ∧ (fy = 1 ↔ y = 256 - 1)
      ∧ (256 : Int) - 1 ≠ 0 ∧ F32.ofInt ((256 : Int) - 1) ≠ F32.fin 0 := by
  obtain ⟨w2, hrun, _, hrays, _, _⟩ := renderImage_run I scene w hlen
  obtain ⟨hcx, hex, hx0, hx1, hxz, hxo⟩ := coord_table x hx
  obtain ⟨hcy, hey, hy0, hy1, hyz, hyo⟩ := coord_table y hy
  have hnorm : ((256 : ℚ) - 1) = 255 := by norm_num
  refine ⟨w2, coordValue x, coordValue y, hrun, ?_, hcx.symm, hcy.symm, ?_, ?_,
    hx0, hx1, hy0, hy1, hxz, hxo, hyz, hyo, by decide, by decide!⟩
  · have hi : y * 256 + x < 65536 := by omega
    have h1 : (y * 256 + x) % 256 = x := by omega
    have h2 : (y * 256 + x) / 256 = y := by omega
    rw [hrays, List.getElem?_append_right (by omega), Nat.add_sub_cancel_left,
      List.getElem?_map, List.getElem?_range hi]
    simp only [Option.map_some', h1, h2]
    rw [pixelRay_eq x y hx hy]
  · rw [hnorm]; exact hex
  · rw [hnorm]; exact hey

/-- Witness of C3: pixel (1, 254) with an intersector that changes nothing. -/
theorem renderImage_ray_witness :
    ∃ w2 fx fy, renderImage (fun _ r => r) ⟨[], true⟩
        ⟨List.replicate 65536 0, false, ⟨fun _ => none, fun _ => true⟩, [], []⟩ = .ok w2
      ∧ w2.rays[([] : List RTCRayHit).length + (254 * 256 + 1)]? = some
          { org_x := F32.fin fx, org_y := F32.fin fy, org_z := F32.fin (-1),
            dir_x := F32.fin 0, dir_y := F32.fin 0, dir_z := F32.fin 1,
            tnear := F32.fin 0, tfar := F32.pinf, mask := 4294967295, flags := 0,
            geomID := RTC_INVALID_GEOMETRY_ID, instID0 := RTC_INVALID_GEOMETRY_ID }
      ∧ F32.fin fx = F32.div (F32.ofInt ((1 : Nat) : Int)) (F32.ofInt ((256 : Int) - 1))
      ∧ F32.fin fy = F32.div (F32.ofInt ((254 : Nat) : Int)) (F32.ofInt ((256 : Int) - 1))
      ∧ |fx - ((1 : Nat) : ℚ) / (256 - 1)| ≤ 1 / 2 ^ 25
      ∧ |fy - ((254 : Nat) : ℚ) / (256 - 1)| ≤ 1 / 2 ^ 25
      ∧ 0 ≤ fx ∧ fx ≤ 1 ∧ 0 ≤ fy ∧ fy ≤ 1
      ∧ (fx = 0 ↔ 1 = 0) ∧ (fx = 1 ↔ 1 = 256 - 1)
      ∧ (fy = 0 ↔ 254 = 0) ∧ (fy = 1 ↔ 254 = 256 - 1)
      ∧ (256 : Int) - 1 ≠ 0 ∧ F32.ofInt ((256 : Int) - 1) ≠ F32.fin 0 :=
  renderImage_ray (fun _ r => r) ⟨[], true⟩
    ⟨List.replicate 65536 0, false, ⟨fun _ => none, fun _ => true⟩, [], []⟩ 1 254
    (List.length_replicate _ _) (by decide) (by decide)

/-! ## Claims about the scene -/

/-- C8: `initializeScene` stores into the mesh buffers if and only if both the
vertex buffer and the index buffer are non-null; then the vertex buffer holds
exactly (0,0,0), (1,0,0), (0,1,0) and the index buffer the one face (0,1,2), every
index below the vertex count 3; if either buffer is null, no store is made, both
buffers are as the allocation left them, and the scene is still committed and
returned. -/
theorem initializeScene_buffers (vbuf : Option (List F32)) (ibuf : Option (List Nat))
    (hv : ∀ v, vbuf = some v → v.length = 9) (hi : ∀ i, ibuf = some i → i.length = 3) :
    ((initializeScene vbuf ibuf).stores ≠ [] ↔ (vbuf ≠ none ∧ ibuf ≠ none))
      ∧ (vbuf ≠ none → ibuf ≠ none →
          ∃ vs ids, (initializeScene vbuf ibuf).scene.geometries =
              [{ vertices := some vs, indices := some ids, committed := true }]
            ∧ vs = [F32.fin 0, F32.fin 0, F32.fin 0, F32.fin 1, F32.fin 0, F32.fin 0,
                    F32.fin 0, F32.fin 1, F32.fin 0]
            ∧ ids = [0, 1, 2]
            ∧ vs.length / 3 = 3
            ∧ ∀ k ∈ ids, k < vs.length / 3)
      ∧ (vbuf = none ∨ ibuf = none →
          (initializeScene vbuf ibuf).stores = []
          ∧ (initializeScene vbuf ibuf).scene.geometries =
              [{ vertices := vbuf, indices := ibuf, committed := true }])
      ∧ (initializeScene vbuf ibuf).scene.committed = true := by
  cases vbuf with
  | none => cases ibuf <;> simp [initializeScene]
  | some v =>
    cases ibuf with
    | none => simp [initializeScene]
    | some i =>
      have h := initializeScene_filled v i (hv v rfl) (hi i rfl)
      refine ⟨by simp [initializeScene], ?_, by simp, by simp [initializeScene]⟩
      intro _ _
      rw [h]
      exact ⟨_, _, rfl, rfl, rfl, by decide, by decide⟩

/-- Witness of C8: both buffers allocated, with arbitrary initial content. -/
theorem initializeScene_buffers_witness :
    ((initializeScene (some (List.replicate 9 F32.nan)) (some [7, 7, 7])).stores ≠ []
        ↔ (some (List.replicate 9 F32.nan) ≠ none ∧ some [7, 7, 7] ≠ none))
      ∧ (some (List.replicate 9 F32.nan) ≠ none → some [7, 7, 7] ≠ none →
          ∃ vs ids,
            (initializeScene (some (List.replicate 9 F32.nan)) (some [7, 7, 7])).scene.geometries
              = [{ vertices := some vs, indices := some ids, committed := true }]
            ∧ vs = [F32.fin 0, F32.fin 0, F32.fin 0, F32.fin 1, F32.fin 0, F32.fin 0,
                    F32.fin 0, F32.fin 1, F32.fin 0]
            ∧ ids = [0, 1, 2]
            ∧ vs.length / 3 = 3
            ∧ ∀ k ∈ ids, k < vs.length / 3)
      ∧ (some (List.replicate 9 F32.nan) = none ∨ some [7, 7, 7] = none →
          (initializeScene (some (List.replicate 9 F32.nan)) (some [7, 7, 7])).stores = []
          ∧ (initializeScene (some (List.replicate 9 F32.nan)) (some [7, 7, 7])).scene.geometries =
              [{ vertices := some (List.replicate 9 F32.nan), indices := some [7, 7, 7],
                 committed := true }])
      ∧ (initializeScene (some (List.replicate 9 F32.nan)) (some [7, 7, 7])).scene.committed
          = true :=
  initializeScene_buffers (some (List.replicate 9 F32.nan)) (some [7, 7, 7])
    (fun v h => by cases h; rfl) (fun i h => by cases h; rfl)

/-- C9 (amended): for the scene `initializeScene` builds (the reference triangle)
and the exact intersector, the value `renderImage` stores for pixel (x, y) of the
256 x 256 grid is 255 exactly when x + y <= 254 or (x, y) is (0, 255) or (255, 0),
and 0 otherwise; pixel (0,0) is 255 and pixel (255,255) is 0. -/
theorem renderImage_reference_triangle (v : List F32) (i : List Nat) (w : World)
    (x y : Nat) (hv : v.length = 9) (hi : i.length = 3) (hlen : w.pixels.length = 65536)
    (hx : x < 256) (hy : y < 256) :
    ∃ w2, renderImage exactIntersect (initializeScene (some v) (some i)).scene w = .ok w2
      ∧ w2.pixels[y * 256 + x]? =
          some (if x + y ≤ 254 ∨ (x = 0 ∧ y = 255) ∨ (x = 255 ∧ y = 0) then 255 else 0)
      ∧ pixelRay 256 256 0 0
          = initRayHit (F32.fin 0) (F32.fin 0) (F32.fin (-1)) (F32.fin 0) (F32.fin 0) (F32.fin 1)
      ∧ w2.pixels[0 * 256 + 0]? = some 255
      ∧ w2.pixels[255 * 256 + 255]? = some 0 := by
  obtain ⟨w2, hrun, hp⟩ := render_reference_raster v i hv hi w hlen
  exact ⟨w2, hrun, hp x y hx hy, by decide!, hp 0 0 (by decide) (by decide),
    hp 255 255 (by decide) (by decide)⟩

/-- Witness of C9: pixel (3, 5) from zeroed buffers and raster. -/
theorem renderImage_reference_triangle_witness :
    ∃ w2, renderImage exactIntersect
        (initializeScene (some (List.replicate 9 (F32.fin 0))) (some [0, 0, 0])).scene
        ⟨List.replicate 65536 0, false, ⟨fun _ => none, fun _ => true⟩, [], []⟩ = .ok w2
      ∧ w2.pixels[5 * 256 + 3]? =
          some (if 3 + 5 ≤ 254 ∨ (3 = 0 ∧ 5 = 255) ∨ (3 = 255 ∧ 5 = 0) then 255 else 0)
      ∧ pixelRay 256 256 0 0
          = initRayHit (F32.fin 0) (F32.fin 0) (F32.fin (-1)) (F32.fin 0) (F32.fin 0) (F32.fin 1)
      ∧ w2.pixels[0 * 256 + 0]? = some 255
      ∧ w2.pixels[255 * 256 + 255]? = some 0 :=
  renderImage_reference_triangle (List.replicate 9 (F32.fin 0)) [0, 0, 0]
    ⟨List.replicate 65536 0, false, ⟨fun _ => none, fun _ => true⟩, [], []⟩ 3 5
    rfl rfl (List.length_replicate _ _) (by decide) (by decide)

/-- C9 (counterexample): pixel (1, 254) lies on the line x + y = 255, yet its ray
has origin (fl(1/255), fl(254/255), -1) whose two binary32 coordinates add up to
more than 1, so the exact intersector reports a miss and the cell holds 0, not 255. -/
theorem reference_triangle_diagonal_counterexample :
    1 + 254 ≤ 255
      ∧ pixelCoord 256 1 = F32.fin (8421505 / 2147483648)
      ∧ pixelCoord 256 254 = F32.fin (16711423 / 16777216)
      ∧ (1 : ℚ) < 8421505 / 2147483648 + 16711423 / 16777216
      ∧ ∃ w2, renderImage exactIntersect
          (initializeScene (some (List.replicate 9 (F32.fin 0))) (some [0, 0, 0])).scene
          ⟨List.replicate 65536 0, false, ⟨fun _ => none, fun _ => true⟩, [], []⟩ = .ok w2
        ∧ w2.pixels[254 * 256 + 1]? = some 0 :=
  ⟨by decide, by decide!, by decide!, by norm_num,
    (render_reference_raster (List.replicate 9 (F32.fin 0)) [0, 0, 0] rfl rfl
      ⟨List.replicate 65536 0, false, ⟨fun _ => none, fun _ => true⟩, [], []⟩
      (List.length_replicate _ _)).imp (fun _ h => ⟨h.1, h.2 1 254 (by decide) (by decide)⟩)⟩

end EmbreeRenderer
